import Mathlib

/-!
# sportmates-api: credential and session lifecycle

A shallow embedding of `internal/app/user/service.go` (the Session Manager):
`Register`, `Login`, `RefreshTokens`, `Logout`, `SendConfirmationLink`,
`ConfirmEmail`, `IsEmailConfirmed`.  The last part embeds `updateUserSports` of
`internal/app/profile/repository.go` on the contents of the table `user_sports`.

The service is stateless; all state lives in its collaborators.  The
collaborators' own code (`internal/pkg/redis`, `internal/pkg/jwthelper`,
`internal/pkg/rabbitmq`, the `user.Repository`) is not part of the sources that
are embedded here, so

* the contents of the two stores are an explicit `World` that every service
  operation receives and returns;
* what the collaborators do *during one call* (which token the codec issues,
  whether a store call fails and with which error, which id the database
  assigns, which bytes the random source yields) is the value of type
  `service` the operation is applied to.  Two consecutive calls may be given
  two different such values.

A Go `error` is identified with its message, the only thing a caller of the
service can observe of the `fmt.Errorf` values it returns.  Key expiry (TTL) in
the session store is an event of the environment between calls and is not
modelled: statements about consecutive calls are about calls with no expiry in
between.
-/

namespace Sportmates

/-! ## Values -/

/-- A Go `error`, identified with its message. -/
abbrev Error := String

/-- Outcome of a Go function returning `(*T, error)`; `panicked` is a run-time
panic (nil-pointer dereference) instead of a return. -/
inductive Result (α : Type) where
  | ok (a : α)
  | err (e : Error)
  | panicked
deriving DecidableEq, Repr

/-- Modelled from the spec: the `jwthelper.TokenPair` (package `jwthelper` is not
among the sources), with the three fields the service reads: `AccessToken`,
`RefreshToken`, `ExpiresIn` (an `int64`, as in `AuthResponse`). -/
structure TokenPair where
  AccessToken : String
  RefreshToken : String
  ExpiresIn : Int
deriving DecidableEq, Repr

/-- Modelled from the spec: the `jwthelper.Claims` (package `jwthelper` is not among
the sources), with the three fields the service reads: `UserID` (the subject),
`Email`, and `Type` (written `Type_`). -/
structure Claims where
  UserID : String
  Email : String
  Type_ : String
deriving DecidableEq, Repr

/-- Response of `Register`, `Login`, `RefreshTokens` (dto.go). -/
structure AuthResponse where
  AccessToken : String
  RefreshToken : String
  ExpiresIn : Int
  UserID : String
  Email : String
deriving DecidableEq, Repr

/-- Request of `Login` (dto.go). -/
structure LoginRequest where
  Email : String
  Password : String
deriving DecidableEq, Repr

/-- Request of `Register` (dto.go). -/
structure RegisterRequest where
  Email : String
  Password : String
deriving DecidableEq, Repr

/-- Request of `SendConfirmationLink` (dto.go). -/
structure SendConfirmationEmailRequest where
  Email : String
deriving DecidableEq, Repr

/-- Modelled from the spec: the user record of the Credential Store (the `User`
model of package `user` is not among the sources): `id`, `email`, nullable
`passwordHash`, `provider`, `emailConfirmed`.  `ID` is the string form of the
UUID (`user.ID.String()`). -/
structure User where
  ID : String
  Email : String
  PasswordHash : Option String
  Provider : String
  EmailConfirmed : Bool
deriving DecidableEq, Repr

/-- Modelled from the spec: the provider constant `LocalProvider` (declared
outside the embedded sources); the spec names the provider `local`. -/
def LocalProvider : String := "local"

/-- The `events.EmailEvent` as `SendConfirmationLink` builds it (service.go 81-89);
`Data` is the Go map written as a list of pairs. -/
structure EmailEvent where
  To : String
  Template : String
  Subject : String
  Data : List (String × String)
deriving DecidableEq, Repr

/-! ## Session store (Redis) -/

/-- Modelled from the spec: a value held in the Session Store: a refresh-token
string, or an email-confirmation entry `(userID, email)`. -/
inductive Value where
  | token (t : String)
  | confirmation (userID email : String)
deriving DecidableEq, Repr

/-- Contents of the Session Store: key/value pairs, the first pair for a key is
the live one. -/
abbrev KV := List (String × Value)

/-- Modelled from the spec: `get(key) → value | Missing`. -/
def kvGet : KV → String → Option Value
  | [], _ => none
  | (k, v) :: rest, key => if k = key then some v else kvGet rest key

/-- Modelled from the spec: `delete(key)`; deleting an absent key changes nothing. -/
def kvDelete (kv : KV) (key : String) : KV :=
  kv.filter (fun p => decide (p.1 ≠ key))

/-- Modelled from the spec: `set(key, value)`; overwrites any previous entry. -/
def kvSet (kv : KV) (key : String) (v : Value) : KV :=
  (key, v) :: kvDelete kv key

/-- The key of a user's refresh token, `service.getRefreshTokenKey`:
`fmt.Sprintf("refresh_token:%s", userID)`. -/
def getRefreshTokenKey (userID : String) : String :=
  "refresh_token:" ++ userID

/-- Modelled from the spec: the key of an email-confirmation entry,
`email_confirm:` followed by the token. -/
def getEmailConfirmationKey (token : String) : String :=
  "email_confirm:" ++ token

/-- Modelled from the spec: the error of a `get` on a missing key. -/
def ErrMissing : Error := "Missing"

/-- Modelled from the spec: the Session Store `redis.Service` (package `redis` is
not among the sources).  Its behaviour during one call: for each method, the error
it fails with (`none`: the call reaches the store and is carried out).  A failed
call leaves the store unchanged. -/
structure RedisService where
  StoreRefreshTokenErr : Option Error
  GetRefreshTokenErr : Option Error
  DeleteRefreshTokenErr : Option Error
  StoreEmailConfirmationErr : Option Error
  GetEmailConfirmationUserIDErr : Option Error
  DeleteEmailConfirmationErr : Option Error
deriving DecidableEq, Repr

/-- Modelled from the spec: `redis.Service.StoreRefreshToken`, a `set` of the
key `refresh_token:userID`. -/
def RedisService.StoreRefreshToken (r : RedisService) (kv : KV)
    (userID refreshToken : String) : Except Error KV :=
  match r.StoreRefreshTokenErr with
  | some e => .error e
  | none => .ok (kvSet kv (getRefreshTokenKey userID) (.token refreshToken))

/-- Modelled from the spec: `redis.Service.GetRefreshToken`, a `get` of the key
`refresh_token:userID`; a missing key is an error. -/
def RedisService.GetRefreshToken (r : RedisService) (kv : KV)
    (userID : String) : Except Error String :=
  match r.GetRefreshTokenErr with
  | some e => .error e
  | none =>
    match kvGet kv (getRefreshTokenKey userID) with
    | some (.token t) => .ok t
    | _ => .error ErrMissing

/-- Modelled from the spec: `redis.Service.DeleteRefreshToken`, a `delete` of
the key `refresh_token:userID`; an absent key is not an error. -/
def RedisService.DeleteRefreshToken (r : RedisService) (kv : KV)
    (userID : String) : Except Error KV :=
  match r.DeleteRefreshTokenErr with
  | some e => .error e
  | none => .ok (kvDelete kv (getRefreshTokenKey userID))

/-- Modelled from the spec: `redis.Service.StoreEmailConfirmation`, a `set` of
`email_confirm:token` to `(userID, email)`. -/
def RedisService.StoreEmailConfirmation (r : RedisService) (kv : KV)
    (userID email token : String) : Except Error KV :=
  match r.StoreEmailConfirmationErr with
  | some e => .error e
  | none => .ok (kvSet kv (getEmailConfirmationKey token) (.confirmation userID email))

/-- Modelled from the spec: `redis.Service.GetEmailConfirmationUserID`, a `get`
of `email_confirm:token` returning the user id of the entry. -/
def RedisService.GetEmailConfirmationUserID (r : RedisService) (kv : KV)
    (token : String) : Except Error String :=
  match r.GetEmailConfirmationUserIDErr with
  | some e => .error e
  | none =>
    match kvGet kv (getEmailConfirmationKey token) with
    | some (.confirmation userID _) => .ok userID
    | _ => .error ErrMissing

/-- Modelled from the spec: `redis.Service.DeleteEmailConfirmation`, a `delete`
of `email_confirm:token`. -/
def RedisService.DeleteEmailConfirmation (r : RedisService) (kv : KV)
    (_userID token : String) : Except Error KV :=
  match r.DeleteEmailConfirmationErr with
  | some e => .error e
  | none => .ok (kvDelete kv (getEmailConfirmationKey token))

/-! ## Credential store (Postgres) -/

/-- Modelled from the spec: the error of a lookup that finds no row (`NotFound`). -/
def ErrNotFound : Error := "NotFound"

/-- Modelled from the spec: the error `createUser` reports on a uniqueness
violation (`DuplicateEmail`). -/
def ErrDuplicateEmail : Error := "DuplicateEmail"

/-- Modelled from the spec: the Credential Store `user.Repository` (its
implementation is not among the sources).  Its behaviour during one call: for each
method the error it fails with (`none`: the query reaches the database), and the id
the database assigns to a row created during the call.  A failed call leaves the
table unchanged. -/
structure Repository where
  CreateUserErr : Option Error
  GetByEmailProviderErr : Option Error
  GetPasswordHashByEmailErr : Option Error
  GetByIDErr : Option Error
  MakeEmailConfirmedErr : Option Error
  NewID : String
deriving DecidableEq, Repr

/-- Modelled from the spec: the error of an insert whose primary key is taken. -/
def ErrDuplicateKey : Error := "DuplicateKey"

/-- Modelled from the spec: `createUser(user) → id | DuplicateEmail`.  The email
is unique in the table (emails are compared as the strings the service passes);
the row is stored under the id the database assigns, which is a primary key. -/
def Repository.CreateUser (r : Repository) (users : List User) (user : User) :
    Except Error (String × List User) :=
  match r.CreateUserErr with
  | some e => .error e
  | none =>
    if users.any (fun u => decide (u.Email = user.Email)) then .error ErrDuplicateEmail
    else if users.any (fun u => decide (u.ID = r.NewID)) then .error ErrDuplicateKey
    else .ok (r.NewID, users ++ [{ user with ID := r.NewID }])

/-- Modelled from the spec: `getByEmailAndProvider(email, provider) → User | NotFound`. -/
def Repository.GetByEmailProvider (r : Repository) (users : List User)
    (email provider : String) : Except Error User :=
  match r.GetByEmailProviderErr with
  | some e => .error e
  | none =>
    match users.find? (fun u => decide (u.Email = email ∧ u.Provider = provider)) with
    | some u => .ok u
    | none => .error ErrNotFound

/-- Modelled from the spec: `getPasswordHash(email) → hash | NotFound`.  The Go
method returns a `*string`: the hash column is nullable, and a row whose hash is
unset yields a nil pointer with a nil error. -/
def Repository.GetPasswordHashByEmail (r : Repository) (users : List User)
    (email : String) : Except Error (Option String) :=
  match r.GetPasswordHashByEmailErr with
  | some e => .error e
  | none =>
    match users.find? (fun u => decide (u.Email = email)) with
    | some u => .ok u.PasswordHash
    | none => .error ErrNotFound

/-- Modelled from the spec: `getByID(id) → User | NotFound`. -/
def Repository.GetByID (r : Repository) (users : List User) (id : String) :
    Except Error User :=
  match r.GetByIDErr with
  | some e => .error e
  | none =>
    match users.find? (fun u => decide (u.ID = id)) with
    | some u => .ok u
    | none => .error ErrNotFound

/-- Modelled from the spec: `markEmailConfirmed(id) → ok | NotFound`: sets
`emailConfirmed` of the rows with that id. -/
def Repository.MakeEmailConfirmed (r : Repository) (users : List User) (id : String) :
    Except Error (List User) :=
  match r.MakeEmailConfirmedErr with
  | some e => .error e
  | none =>
    if users.any (fun u => decide (u.ID = id)) then
      .ok (users.map (fun u => if u.ID = id then { u with EmailConfirmed := true } else u))
    else .error ErrNotFound

/-- Modelled from the spec: the mapper `RegisterRequestToUser` (not among the
sources): the record to create has the request's email, the given hash,
provider `local` and `emailConfirmed = false`; its id is assigned by the store. -/
def RegisterRequestToUser (req : RegisterRequest) (hashedPassword : String) : User :=
  { ID := "", Email := req.Email, PasswordHash := some hashedPassword,
    Provider := LocalProvider, EmailConfirmed := false }

/-! ## Token codec, password hasher, random source, messaging -/

/-- Modelled from the spec: the Token Codec `jwthelper.JWTHelper` (package
`jwthelper` is not among the sources), `issuePair(subject, email) → pair |
IssuanceFailure` and `verify(token) → Claims | InvalidToken`.  The codec is supplied
externally: both methods are parameters, nothing is assumed of them. -/
structure JWTHelper where
  GenerateTokenPair : String → String → Except Error TokenPair
  ParseJWT : String → Except Error Claims

/-- Behaviour of `golang.org/x/crypto/bcrypt` during one call:
`GenerateFromPassword` (salted, hence not a function of the password alone across
calls) and `CompareHashAndPassword hash password` (`none` is a nil error). -/
structure Bcrypt where
  GenerateFromPassword : String → Except Error String
  CompareHashAndPassword : String → String → Option Error

/-- A Go `[]byte` of length `n`. -/
abbrev ByteSlice (n : Nat) := { l : List (Fin 256) // l.length = n }

/-- Behaviour of `crypto/rand` during one call: `Read` on a buffer of `n` bytes
fails or fills the whole buffer. -/
structure RandReader where
  Read : (n : Nat) → Except Error (ByteSlice n)

/-- Modelled from the spec: the Messaging publisher `rabbitmq.Service` (package
`rabbitmq` is not among the sources), `publishEmailEvent(event) → ok | Failure`.
Its behaviour during one call: the error `PublishEmail` fails with (`none`: the
event is published). -/
structure RabbitMQService where
  PublishEmailErr : Option Error
deriving DecidableEq, Repr

/-- One hexadecimal digit of `encoding/hex` (table `0123456789abcdef`). -/
def hexDigit (n : Nat) : Char :=
  "0123456789abcdef".toList.getD n '0'

/-- The function `hex.EncodeToString`: two lowercase digits per byte, high nibble first. -/
def hexEncodeToString (bs : List (Fin 256)) : String :=
  String.mk (bs.flatMap (fun b => [hexDigit (b.val / 16), hexDigit (b.val % 16)]))

/-! ## World and service -/

/-- The state outside the service: contents of the Session Store, rows of the
Credential Store, and the email events published so far. -/
structure World where
  kv : KV
  users : List User
  outbox : List EmailEvent
deriving DecidableEq, Repr

/-- The `service` struct: its collaborators (`jwtHelper`, `redis`, `rabbitmq`
which may be nil, `repo`; the logger has no effect on results), together with the
two libraries it calls directly (`bcrypt`, `crypto/rand`). -/
structure service where
  jwtHelper : JWTHelper
  redis : RedisService
  rabbitmq : Option RabbitMQService
  repo : Repository
  bcrypt : Bcrypt
  rand : RandReader

/-- Method `storeRefreshToken`: `return s.redis.StoreRefreshToken(ctx, userID, refreshToken)`. -/
def service.storeRefreshToken (s : service) (w : World) (userID refreshToken : String) :
    Except Error World :=
  match s.redis.StoreRefreshToken w.kv userID refreshToken with
  | .error e => .error e
  | .ok kv => .ok { w with kv := kv }

/-- Method `RefreshTokens` (service.go 221-269). -/
def service.RefreshTokens (s : service) (w : World) (refreshToken : String) :
    Result AuthResponse × World :=
  if refreshToken = "" then (.err "refresh token обязателен", w)
  else
    match s.jwtHelper.ParseJWT refreshToken with
    | .error _ => (.err "неверный refresh token", w)
    | .ok claims =>
      if claims.Type_ ≠ "refresh" then (.err "неверный тип токена", w)
      else
        match s.redis.GetRefreshToken w.kv claims.UserID with
        | .error _ => (.err "refresh token не найден или истек", w)
        | .ok storedToken =>
          if storedToken ≠ refreshToken then (.err "неверный refresh token", w)
          else
            match s.jwtHelper.GenerateTokenPair claims.UserID claims.Email with
            | .error _ => (.err "произошла ошибка", w)
            | .ok newTokenPair =>
              match s.storeRefreshToken w claims.UserID newTokenPair.RefreshToken with
              | .error _ => (.err "произошла ошибка", w)
              | .ok w' =>
                (.ok { AccessToken := newTokenPair.AccessToken,
                       RefreshToken := newTokenPair.RefreshToken,
                       ExpiresIn := newTokenPair.ExpiresIn,
                       UserID := claims.UserID,
                       Email := claims.Email }, w')

/-- Method `Logout` (service.go 271-280); `none` is a nil error. -/
def service.Logout (s : service) (w : World) (userID : String) : Option Error × World :=
  match s.redis.DeleteRefreshToken w.kv userID with
  | .error _ => (some "не удалось выполнить выход", w)
  | .ok kv => (none, { w with kv := kv })

/-- Method `Register` (service.go 135-173). -/
def service.Register (s : service) (w : World) (req : RegisterRequest) :
    Result AuthResponse × World :=
  match s.bcrypt.GenerateFromPassword req.Password with
  | .error _ => (.err "произошла ошибка", w)
  | .ok hashedPasswordStr =>
    let user := RegisterRequestToUser req hashedPasswordStr
    match s.repo.CreateUser w.users user with
    | .error err => (.err err, w)
    | .ok (userID, users) =>
      let w1 : World := { w with users := users }
      match s.jwtHelper.GenerateTokenPair userID req.Email with
      | .error _ => (.err "произошла ошибка", w1)
      | .ok tokenPair =>
        match s.storeRefreshToken w1 userID tokenPair.RefreshToken with
        | .error _ => (.err "произошла ошибка", w1)
        | .ok w2 =>
          (.ok { AccessToken := tokenPair.AccessToken,
                 RefreshToken := tokenPair.RefreshToken,
                 ExpiresIn := tokenPair.ExpiresIn,
                 UserID := userID,
                 Email := req.Email }, w2)

/-- Method `Login` (service.go 175-219).  `*passwordHash` dereferences the pointer
returned by the repository: a nil pointer there is a run-time panic. -/
def service.Login (s : service) (w : World) (req : LoginRequest) :
    Result AuthResponse × World :=
  match s.repo.GetByEmailProvider w.users req.Email LocalProvider with
  | .error _ => (.err "неверный email или пароль", w)
  | .ok user =>
    match s.repo.GetPasswordHashByEmail w.users req.Email with
    | .error _ => (.err "неверный email или пароль", w)
    | .ok passwordHash =>
      if req.Password = "" then (.err "неверный email или пароль", w)
      else
        match passwordHash with
        | none => (.panicked, w)
        | some hash =>
          match s.bcrypt.CompareHashAndPassword hash req.Password with
          | some _ => (.err "неверный email или пароль", w)
          | none =>
            match s.jwtHelper.GenerateTokenPair user.ID user.Email with
            | .error _ => (.err "произошла ошибка", w)
            | .ok tokenPair =>
              match s.storeRefreshToken w user.ID tokenPair.RefreshToken with
              | .error _ => (.err "произошла ошибка", w)
              | .ok w' =>
                (.ok { AccessToken := tokenPair.AccessToken,
                       RefreshToken := tokenPair.RefreshToken,
                       ExpiresIn := tokenPair.ExpiresIn,
                       UserID := user.ID,
                       Email := user.Email }, w')

/-- Method `SendConfirmationLink` (service.go 60-100); `none` is a nil error. -/
def service.SendConfirmationLink (s : service) (w : World)
    (req : SendConfirmationEmailRequest) (userID : String) : Option Error × World :=
  if userID = "" ∨ req.Email = "" then (some "userID и email обязательны", w)
  else
    match s.rand.Read 32 with
    | .error _ => (some "не удалось сгенерировать токен", w)
    | .ok rawToken =>
      let token := hexEncodeToString rawToken.val
      match s.redis.StoreEmailConfirmation w.kv userID req.Email token with
      | .error _ => (some "не удалось сохранить токен", w)
      | .ok kv =>
        let w1 : World := { w with kv := kv }
        let confirmationURL := "https://sportmates.ru/confirm?token=" ++ token
        match s.rabbitmq with
        | some mq =>
          let event : EmailEvent :=
            { To := req.Email,
              Template := "email_confirmation",
              Subject := "Подтвердите ваш email",
              Data := [("confirmation_url", confirmationURL), ("user_email", req.Email)] }
          match mq.PublishEmailErr with
          | some _ => (none, w1)
          | none => (none, { w1 with outbox := w1.outbox ++ [event] })
        | none => (none, w1)

/-- Method `ConfirmEmail` (service.go 102-124); `none` is a nil error. -/
def service.ConfirmEmail (s : service) (w : World) (token : String) : Option Error × World :=
  if token = "" then (some "токен обязателен", w)
  else
    match s.redis.GetEmailConfirmationUserID w.kv token with
    | .error _ => (some "неверная или устаревшая ссылка подтверждения", w)
    | .ok userID =>
      match s.repo.MakeEmailConfirmed w.users userID with
      | .error _ => (some "не удалось подтвердить email", w)
      | .ok users =>
        let w1 : World := { w with users := users }
        match s.redis.DeleteEmailConfirmation w1.kv userID token with
        | .error _ => (none, w1)
        | .ok kv => (none, { w1 with kv := kv })

/-- Method `IsEmailConfirmed` (service.go 126-133): returns `(false, err)` when the
lookup fails.  `errFailedToLoadData` is the constant `errors.ErrFailedToLoadData`,
declared outside the embedded sources. -/
def service.IsEmailConfirmed (s : service) (errFailedToLoadData : Error) (w : World)
    (userID : String) : Bool × Option Error :=
  match s.repo.GetByID w.users userID with
  | .error _ => (false, some errFailedToLoadData)
  | .ok user => (user.EmailConfirmed, none)

/-! ## The error kinds of the spec, as the messages the service returns -/

/-- Error of `RefreshTokens` on an empty token (service.go 223). -/
def MissingToken : Error := "refresh token обязателен"

/-- Error of `RefreshTokens` when `ParseJWT` rejects the token (service.go 229). -/
def InvalidToken : Error := "неверный refresh token"

/-- Error of `RefreshTokens` when the decoded type is not `refresh` (service.go 234). -/
def WrongTokenType : Error := "неверный тип токена"

/-- Error of `RefreshTokens` when no stored token can be fetched (service.go 240). -/
def TokenNotFound : Error := "refresh token не найден или истек"

/-- Error of `RefreshTokens` when the stored token differs from the supplied one
(service.go 245). -/
def TokenMismatch : Error := "неверный refresh token"

/-- Error of `Login` on every credential failure (service.go 179, 185, 190, 195). -/
def InvalidCredentials : Error := "неверный email или пароль"

/-- Error of `Register` when hashing fails (service.go 139). -/
def HashingFailure : Error := "произошла ошибка"

/-- Error of `Register`, `Login`, `RefreshTokens` when the codec fails to issue a
pair (service.go 155, 201, 251). -/
def TokenIssuanceFailure : Error := "произошла ошибка"

/-- Error of `Register`, `Login`, `RefreshTokens` when storing the refresh token
fails (service.go 161, 207, 257). -/
def PersistenceFailure : Error := "произошла ошибка"

/-- Error of `SendConfirmationLink` on an empty user id or email (service.go 62). -/
def MissingParameter : Error := "userID и email обязательны"

/-- Error of `SendConfirmationLink` when the random source fails (service.go 68). -/
def TokenGenerationFailure : Error := "не удалось сгенерировать токен"

/-- Error of `SendConfirmationLink` when the Session Store write fails (service.go 75). -/
def StorageFailure : Error := "не удалось сохранить токен"

/-- Error of `ConfirmEmail` on an empty token (service.go 104). -/
def TokenRequired : Error := "токен обязателен"

/-- Error of `ConfirmEmail` when the token has no mapping (service.go 110). -/
def InvalidOrExpiredToken : Error := "неверная или устаревшая ссылка подтверждения"

/-- Error of `ConfirmEmail` when marking the user fails (service.go 115). -/
def ConfirmationPersistFailure : Error := "не удалось подтвердить email"

/-- Error of `Logout` when the delete fails (service.go 275). -/
def LogoutFailure : Error := "не удалось выполнить выход"

/-- The refresh token stored for a user, if any. -/
def storedRefreshToken (w : World) (userID : String) : Option String :=
  match kvGet w.kv (getRefreshTokenKey userID) with
  | some (.token t) => some t
  | _ => none

/-- Token `t` is accepted for user `u` in state `w`: some call `RefreshTokens(t)`
in that state succeeds with a response for `u`. -/
def Accepted (w : World) (u t : String) : Prop :=
  ∃ (s : service) (r : AuthResponse) (w' : World),
    s.RefreshTokens w t = (.ok r, w') ∧ r.UserID = u

/-! ## Concrete collaborators used to evaluate the service -/

/-- A Session Store in which every call is carried out. -/
def redisUp : RedisService :=
  { StoreRefreshTokenErr := none, GetRefreshTokenErr := none, DeleteRefreshTokenErr := none,
    StoreEmailConfirmationErr := none, GetEmailConfirmationUserIDErr := none,
    DeleteEmailConfirmationErr := none }

/-- A Credential Store in which every query is carried out and which assigns `newID`. -/
def repoUp (newID : String) : Repository :=
  { CreateUserErr := none, GetByEmailProviderErr := none, GetPasswordHashByEmailErr := none,
    GetByIDErr := none, MakeEmailConfirmedErr := none, NewID := newID }

/-- A password hasher: the hash is the password behind a fixed salt. -/
def demoBcrypt : Bcrypt :=
  { GenerateFromPassword := fun p => .ok ("salt:" ++ p),
    CompareHashAndPassword := fun h p =>
      if h = "salt:" ++ p then none else some "hashedPassword is not the hash of the given password" }

/-- A random source that fills the buffer with the byte `0xab`. -/
def demoRand : RandReader :=
  { Read := fun n => .ok ⟨List.replicate n 0xab, List.length_replicate n _⟩ }

/-- A codec that is a function of subject and email alone, as the spec's
`issuePair(subject, email)`: the same subject and email give the same tokens. -/
def fixedCodec : JWTHelper :=
  { GenerateTokenPair := fun userID email =>
      .ok ⟨"access." ++ userID ++ "." ++ email, "refresh." ++ userID ++ "." ++ email, 900⟩,
    ParseJWT := fun t =>
      if t = "refresh.u1.a@x.com" then .ok ⟨"u1", "a@x.com", "refresh"⟩
      else if t = "access.u1.a@x.com" then .ok ⟨"u1", "a@x.com", "access"⟩
      else .error "token is malformed" }

/-- A codec that verifies the refresh tokens `old` and `new` of user `u1` and
issues `new`. -/
def rotatingCodec : JWTHelper :=
  { GenerateTokenPair := fun _ _ => .ok ⟨"acc", "new", 900⟩,
    ParseJWT := fun t =>
      if t = "old" ∨ t = "new" then .ok ⟨"u1", "a@x.com", "refresh"⟩
      else if t = "acc" then .ok ⟨"u1", "a@x.com", "access"⟩
      else .error "token is malformed" }

/-- The service with working stores around a given codec. -/
def demoService (codec : JWTHelper) : service :=
  { jwtHelper := codec, redis := redisUp, rabbitmq := some ⟨none⟩, repo := repoUp "u1",
    bcrypt := demoBcrypt, rand := demoRand }

/-- The empty world. -/
def emptyWorld : World := { kv := [], users := [], outbox := [] }

/-- A world with user `u1` whose stored refresh token is `t`. -/
def worldWith (t : String) : World :=
  { kv := [("refresh_token:u1", .token t)],
    users := [⟨"u1", "a@x.com", some "salt:password1", "local", false⟩],
    outbox := [] }

/-- A world with a user `u2` registered through an external provider only. -/
def worldExternal : World :=
  { kv := [], users := [⟨"u2", "b@x.com", none, "google", false⟩], outbox := [] }

/-- The token `SendConfirmationLink` builds from the bytes of `demoRand`. -/
def demoToken : String := hexEncodeToString (List.replicate 32 0xab)

/-- A world with the unconfirmed user `u1` and a pending confirmation entry for
`demoToken`. -/
def worldPending : World :=
  { kv := [("email_confirm:" ++ demoToken, .confirmation "u1" "a@x.com")],
    users := [⟨"u1", "a@x.com", some "salt:password1", "local", false⟩],
    outbox := [] }

/-- The same world after `u1` has been confirmed, the entry still being there. -/
def worldConfirmedKept : World :=
  { worldPending with users := [⟨"u1", "a@x.com", some "salt:password1", "local", true⟩] }

/-- The same world after `u1` has been confirmed and the entry deleted. -/
def worldConfirmed : World :=
  { worldConfirmedKept with kv := [] }

/-- A service with working stores, except that deleting a confirmation entry fails. -/
def serviceDeleteFails : service :=
  { demoService fixedCodec with
      redis := { redisUp with DeleteEmailConfirmationErr := some "connection reset by peer" } }

/-- The world `worldWith t` after `SendConfirmationLink` for `u1` with `demoService`:
the confirmation entry is stored and one email event is published. -/
def worldSent (t : String) : World :=
  { kv := [("email_confirm:" ++ demoToken, .confirmation "u1" "a@x.com"),
           ("refresh_token:u1", .token t)],
    users := [⟨"u1", "a@x.com", some "salt:password1", "local", false⟩],
    outbox := [{ To := "a@x.com", Template := "email_confirmation",
                 Subject := "Подтвердите ваш email",
                 Data := [("confirmation_url", "https://sportmates.ru/confirm?token=" ++ demoToken),
                          ("user_email", "a@x.com")] }] }

/-- The codec's `verify` inverts its `issuePair`: both tokens of every pair it issues
for a subject and an email decode to that subject and email. -/
def VerifyInvertsIssue (j : JWTHelper) : Prop :=
  ∀ (subject email : String) (p : TokenPair), j.GenerateTokenPair subject email = .ok p →
    (∃ c, j.ParseJWT p.AccessToken = .ok c ∧ c.UserID = subject ∧ c.Email = email) ∧
    (∃ c, j.ParseJWT p.RefreshToken = .ok c ∧ c.UserID = subject ∧ c.Email = email)

/-- A codec for the one subject `u1` whose `verify` inverts its `issuePair` and whose
pairs carry `ExpiresIn = n`. -/
def lifetimeCodec (n : Int) : JWTHelper :=
  { GenerateTokenPair := fun userID email =>
      if userID = "u1" ∧ email = "a@x.com" then .ok ⟨"A", "R", n⟩
      else .error "unknown subject",
    ParseJWT := fun t =>
      if t = "R" then .ok ⟨"u1", "a@x.com", "refresh"⟩
      else if t = "A" then .ok ⟨"u1", "a@x.com", "access"⟩
      else .error "token is malformed" }

/-- A service whose password hasher fails. -/
def serviceHashFails : service :=
  { demoService fixedCodec with
      bcrypt := { demoBcrypt with
        GenerateFromPassword := fun _ => .error "bcrypt: password length exceeds 72 bytes" } }

/-- A service whose codec fails to issue. -/
def serviceCodecFails : service :=
  { demoService fixedCodec with
      jwtHelper := { fixedCodec with GenerateTokenPair := fun _ _ => .error "key is invalid" } }

/-- A service whose Session Store rejects the write of the refresh token. -/
def serviceStoreFails : service :=
  { demoService fixedCodec with
      redis := { redisUp with StoreRefreshTokenErr := some "connection refused" } }

/-- A service whose Credential Store fails `CreateUser` with the given error. -/
def serviceCreateFails (e : Error) : service :=
  { demoService fixedCodec with repo := { repoUp "u1" with CreateUserErr := some e } }

/-- Two optional errors agree up to the detail of the error. -/
def sameOutcome (a b : Option Error) : Prop := a.isSome = b.isSome

/-- Two results agree up to the detail of the error: both fail, or both succeed with
the same value. -/
def sameResult {α : Type} (a b : Except Error α) : Prop :=
  match a, b with
  | .ok x, .ok y => x = y
  | .error _, .error _ => True
  | _, _ => False

/-- Two behaviours of the collaborators differ only in the detail of the errors
reported by the Credential Store, the Session Store and the Token Codec: each call
fails in both or succeeds in both with the same value. -/
def SameUpToErrorDetail (s₁ s₂ : service) : Prop :=
  (∀ u e, sameResult (s₁.jwtHelper.GenerateTokenPair u e) (s₂.jwtHelper.GenerateTokenPair u e)) ∧
  (∀ t, sameResult (s₁.jwtHelper.ParseJWT t) (s₂.jwtHelper.ParseJWT t)) ∧
  sameOutcome s₁.redis.StoreRefreshTokenErr s₂.redis.StoreRefreshTokenErr ∧
  sameOutcome s₁.redis.GetRefreshTokenErr s₂.redis.GetRefreshTokenErr ∧
  sameOutcome s₁.redis.DeleteRefreshTokenErr s₂.redis.DeleteRefreshTokenErr ∧
  sameOutcome s₁.repo.CreateUserErr s₂.repo.CreateUserErr ∧
  sameOutcome s₁.repo.GetByEmailProviderErr s₂.repo.GetByEmailProviderErr ∧
  sameOutcome s₁.repo.GetPasswordHashByEmailErr s₂.repo.GetPasswordHashByEmailErr ∧
  s₁.repo.NewID = s₂.repo.NewID ∧
  s₁.bcrypt = s₂.bcrypt

/-- A service whose Session Store write of the refresh token times out. -/
def serviceStoreTimesOut : service :=
  { demoService fixedCodec with
      redis := { redisUp with StoreRefreshTokenErr := some "i/o timeout" } }

/-- Value of a lowercase hexadecimal digit (`0`-`9`, `a`-`f`). -/
def hexValue (c : Char) : Nat :=
  if '0' ≤ c ∧ c ≤ '9' then c.toNat - 48
  else if 'a' ≤ c ∧ c ≤ 'f' then c.toNat - 87
  else 0

/-- Reading of a hexadecimal string, two digits per byte, high nibble first. -/
def hexDecode : List Char → List Nat
  | hi :: lo :: rest => (16 * hexValue hi + hexValue lo) :: hexDecode rest
  | _ => []

/-- The event `SendConfirmationLink` publishes for an email and a token
(service.go 78-89). -/
def confirmationEvent (email token : String) : EmailEvent :=
  { To := email, Template := "email_confirmation", Subject := "Подтвердите ваш email",
    Data := [("confirmation_url", "https://sportmates.ru/confirm?token=" ++ token),
             ("user_email", email)] }

/-- A world with the local user `u3` whose password hash is unset. -/
def worldUnsetHash : World :=
  { kv := [], users := [⟨"u3", "c@x.com", none, "local", false⟩], outbox := [] }

/-- A service whose Credential Store fails `MakeEmailConfirmed`. -/
def serviceMarkFails : service :=
  { demoService fixedCodec with
      repo := { repoUp "u1" with MakeEmailConfirmedErr := some "connection refused" } }

/-- The email-confirmation entry `(userID, email)` the Session Store holds for a
token, if any. -/
def confirmationEntry (w : World) (token : String) : Option (String × String) :=
  match kvGet w.kv (getEmailConfirmationKey token) with
  | some (.confirmation userID email) => some (userID, email)
  | _ => none

/-- A world with two users, `u1` holding the refresh token `t` and `u2` holding
`tok2`, and a pending confirmation entry for `demoToken`. -/
def worldTwo (t : String) : World :=
  { kv := [("refresh_token:u1", .token t), ("refresh_token:u2", .token "tok2"),
           ("email_confirm:" ++ demoToken, .confirmation "u2" "b@x.com")],
    users := [⟨"u1", "a@x.com", some "salt:password1", "local", false⟩,
              ⟨"u2", "b@x.com", some "salt:password2", "local", false⟩],
    outbox := [] }

/-- The user a response of `Register`, `Login` or `RefreshTokens` is for: the
`UserID` of a successful response, nothing for a call that failed. -/
def subjectOf : Result AuthResponse → Option String
  | .ok r => some r.UserID
  | _ => none

/-! ## Profile repository: the sports of a user (`internal/app/profile/repository.go`) -/

/-- A lowercase hexadecimal digit. -/
def isLowerHex (c : Char) : Bool :=
  decide (('0' ≤ c ∧ c ≤ '9') ∨ ('a' ≤ c ∧ c ≤ 'f'))

/-- The character allowed at position `i` of the canonical text of a UUID
(`xxxxxxxx-xxxx-xxxx-xxxx-xxxxxxxxxxxx`): a hyphen at 8, 13, 18, 23, a lowercase
hexadecimal digit elsewhere. -/
def canonicalAt (i : Nat) (c : Char) : Bool :=
  if i = 8 ∨ i = 13 ∨ i = 18 ∨ i = 23 then decide (c = '-') else isLowerHex c

/-- The text is the canonical form of a UUID, the one `uuid.UUID.String` produces:
36 characters, lowercase digits, hyphens after 8, 12, 16 and 20 digits. -/
def isCanonicalUUID (s : String) : Bool :=
  decide (s.data.length = 36) &&
    (List.range 36).all (fun i => canonicalAt i (s.data.getD i ' '))

/-- A `uuid.UUID`, identified with its canonical text. -/
abbrev UUID := { s : String // isCanonicalUUID s = true }

/-- The method `uuid.UUID.String`: the canonical text. -/
def UUID.String (u : UUID) : String := u.val

/-- The text with its upper-case ASCII letters replaced by lower-case ones. -/
def foldCase (s : String) : String := String.mk (s.data.map Char.toLower)

/-- The conversion of a text to a UUID by the database (`$2::uuid[]`, and the
comparison of the `uuid` column `sport_id` with a text parameter): the standard
form is accepted with digits of either case and denotes the UUID whose canonical
text is its lower-case form.  (The database accepts further spellings of the same
values, braces for instance; they are not needed here.) -/
def parseUUID (s : String) : Option UUID :=
  if h : isCanonicalUUID s = true then some ⟨s, h⟩
  else if h : isCanonicalUUID (foldCase s) = true then some ⟨foldCase s, h⟩
  else none

/-- A row of the table `user_sports` (models.go). -/
structure UserSport where
  UserID : UUID
  SportID : UUID
deriving DecidableEq

/-- The function `mapset.NewSet` on strings: a set is kept as a list without
repetitions (the order in which `ToSlice` lists it is unspecified in Go). -/
def mapset.NewSet (xs : List String) : List String := xs.dedup

/-- The method `Difference` of `mapset.Set`: the elements of `a` that are not in `b`. -/
def mapset.Difference (a b : List String) : List String :=
  a.filter (fun x => decide (x ∉ b))

/-- Behaviour of the database during one call of the profile `repository`: for the
query of `GetUserSports`, its row scan and row iteration, and for the two `Exec`
statements of `updateUserSports`, the error it fails with (`none`: carried out). -/
structure repository where
  QueryErr : Option Error
  ScanErr : Option Error
  RowsErr : Option Error
  InsertErr : Option Error
  DeleteErr : Option Error
deriving DecidableEq, Repr

/-- Method `GetUserSports` (repository.go 192-223): the rows of the user, errors
wrapped by `fmt.Errorf`. -/
def repository.GetUserSports (r : repository) (table : List UserSport) (userID : UUID) :
    Except Error (List UserSport) :=
  match r.QueryErr with
  | some e => .error ("failed to query user sports: " ++ e)
  | none =>
    let rows := table.filter (fun us => decide (us.UserID = userID))
    match rows, r.ScanErr with
    | _ :: _, some e => .error ("failed to scan user sport: " ++ e)
    | _, _ =>
      match r.RowsErr with
      | some e => .error ("row iteration error: " ++ e)
      | none => .ok rows

/-- The cast `$2::uuid[]` of a list of texts: fails on the first text that is not a
UUID. -/
def castUUIDArray : List String → Except Error (List UUID)
  | [] => .ok []
  | s :: rest =>
    match parseUUID s with
    | none => .error ("invalid input syntax for type uuid: " ++ s)
    | some u =>
      match castUUIDArray rest with
      | .error e => .error e
      | .ok us => .ok (u :: us)

/-- The statement `INSERT INTO user_sports (user_id, sport_id) SELECT $1, x FROM
UNNEST($2::uuid[]) AS x ON CONFLICT DO NOTHING` (repository.go 242-247): a row that
is already there is skipped. -/
def repository.execInsert (r : repository) (table : List UserSport) (userID : UUID)
    (ids : List String) : Except Error (List UserSport) :=
  match r.InsertErr with
  | some e => .error e
  | none =>
    match castUUIDArray ids with
    | .error e => .error e
    | .ok us =>
      .ok (us.foldl
        (fun t x => if (⟨userID, x⟩ : UserSport) ∈ t then t else t ++ [⟨userID, x⟩]) table)

/-- The statement `DELETE FROM user_sports WHERE user_id = $1 AND sport_id = ANY($2)`
(repository.go 254-258). -/
def repository.execDelete (r : repository) (table : List UserSport) (userID : UUID)
    (ids : List String) : Except Error (List UserSport) :=
  match r.DeleteErr with
  | some e => .error e
  | none =>
    match castUUIDArray ids with
    | .error e => .error e
    | .ok us =>
      .ok (table.filter (fun row => !decide (row.UserID = userID ∧ row.SportID ∈ us)))

/-- Method `updateUserSports` (repository.go 225-265), on the contents of
`user_sports`; an error leaves the transaction to be rolled back by the caller. -/
def repository.updateUserSports (r : repository) (table : List UserSport) (userID : UUID)
    (sportIDs : List String) : Except Error (List UserSport) :=
  match r.GetUserSports table userID with
  | .error err => .error err
  | .ok oldSports =>
    let oldSet := mapset.NewSet (oldSports.map (fun s => UUID.String s.SportID))
    let newSet := mapset.NewSet sportIDs
    let toInsert := mapset.Difference newSet oldSet
    let toDelete := mapset.Difference oldSet newSet
    match (if toInsert.length > 0 then r.execInsert table userID toInsert else .ok table) with
    | .error err => .error err
    | .ok table1 =>
      if toDelete.length > 0 then r.execDelete table1 userID toDelete else .ok table1

/-- The sports stored for a user. -/
def storedSports (table : List UserSport) (userID : UUID) : List UUID :=
  (table.filter (fun us => decide (us.UserID = userID))).map (fun us => us.SportID)

/-- A database in which every statement is carried out. -/
def dbUp : repository :=
  { QueryErr := none, ScanErr := none, RowsErr := none, InsertErr := none, DeleteErr := none }

/-- The user `11111111-1111-4111-8111-111111111111`. -/
def userU : UUID := ⟨"11111111-1111-4111-8111-111111111111", by decide⟩

/-- The sport `a0eebc99-9c0b-4ef8-bb6d-6bb9bd380a11`. -/
def sportA : UUID := ⟨"a0eebc99-9c0b-4ef8-bb6d-6bb9bd380a11", by decide⟩

/-- The sport `b1ffcd00-0d1c-4fa9-8c7e-7cc0ce491b22`. -/
def sportB : UUID := ⟨"b1ffcd00-0d1c-4fa9-8c7e-7cc0ce491b22", by decide⟩

/-! # Theorems -/

/-! ## Session-store lemmas -/

theorem kvDelete_cons_eq (kv : KV) (k : String) (v : Value) :
    kvDelete ((k, v) :: kv) k = kvDelete kv k := by
  simp [kvDelete]

theorem kvDelete_cons_ne (kv : KV) (k k0 : String) (v : Value) (h : k0 ≠ k) :
    kvDelete ((k0, v) :: kv) k = (k0, v) :: kvDelete kv k := by
  simp [kvDelete, h]

theorem kvGet_kvDelete_self (kv : KV) (k : String) : kvGet (kvDelete kv k) k = none := by
  induction kv with
  | nil => rfl
  | cons p rest ih =>
    obtain ⟨k0, v⟩ := p
    by_cases hk : k0 = k
    · subst hk
      rw [kvDelete_cons_eq]
      exact ih
    · rw [kvDelete_cons_ne _ _ _ _ hk]
      simp only [kvGet, if_neg hk]
      exact ih

theorem kvGet_kvDelete_of_ne (kv : KV) (k k' : String) (h : k' ≠ k) :
    kvGet (kvDelete kv k) k' = kvGet kv k' := by
  induction kv with
  | nil => rfl
  | cons p rest ih =>
    obtain ⟨k0, v⟩ := p
    by_cases hk : k0 = k
    · subst hk
      rw [kvDelete_cons_eq]
      have hk' : k0 ≠ k' := fun e => h e.symm
      simp only [kvGet, if_neg hk']
      exact ih
    · rw [kvDelete_cons_ne _ _ _ _ hk]
      by_cases hk' : k0 = k'
      · simp only [kvGet, if_pos hk']
      · simp only [kvGet, if_neg hk']
        exact ih

theorem kvGet_kvSet_self (kv : KV) (k : String) (v : Value) :
    kvGet (kvSet kv k v) k = some v := by
  simp [kvSet, kvGet]

theorem kvGet_kvSet_of_ne (kv : KV) (k k' : String) (v : Value) (h : k' ≠ k) :
    kvGet (kvSet kv k v) k' = kvGet kv k' := by
  have h' : k ≠ k' := fun e => h e.symm
  simp [kvSet, kvGet, h', kvGet_kvDelete_of_ne kv k k' h]

theorem kvDelete_kvDelete (kv : KV) (k : String) : kvDelete (kvDelete kv k) k = kvDelete kv k := by
  simp [kvDelete, List.filter_filter]

theorem getRefreshTokenKey_inj (a b : String)
    (h : getRefreshTokenKey a = getRefreshTokenKey b) : a = b := by
  have := congrArg String.data h
  simp [getRefreshTokenKey, String.data_append] at this
  exact String.ext this

theorem getRefreshTokenKey_ne_getEmailConfirmationKey (a b : String) :
    getRefreshTokenKey a ≠ getEmailConfirmationKey b := by
  intro h
  have := congrArg String.data h
  simp [getRefreshTokenKey, getEmailConfirmationKey, String.data_append] at this

theorem GetRefreshToken_ok_iff (r : RedisService) (kv : KV) (u t : String) :
    r.GetRefreshToken kv u = .ok t ↔
      r.GetRefreshTokenErr = none ∧ kvGet kv (getRefreshTokenKey u) = some (.token t) := by
  unfold RedisService.GetRefreshToken
  cases r.GetRefreshTokenErr with
  | some e => simp
  | none =>
    cases hg : kvGet kv (getRefreshTokenKey u) with
    | none => simp
    | some v => cases v <;> simp

theorem storeRefreshToken_ok_iff (s : service) (w w' : World) (u t : String) :
    s.storeRefreshToken w u t = .ok w' ↔
      s.redis.StoreRefreshTokenErr = none ∧
      w' = { w with kv := kvSet w.kv (getRefreshTokenKey u) (.token t) } := by
  unfold service.storeRefreshToken RedisService.StoreRefreshToken
  cases s.redis.StoreRefreshTokenErr with
  | some e => simp
  | none => simp [eq_comm]

/-- What a successful `RefreshTokens` went through. -/
theorem RefreshTokens_ok_inv (s : service) (w w' : World) (t : String) (r : AuthResponse)
    (h : s.RefreshTokens w t = (.ok r, w')) :
    ∃ (claims : Claims) (p : TokenPair),
      t ≠ "" ∧ s.jwtHelper.ParseJWT t = .ok claims ∧ claims.Type_ = "refresh" ∧
      s.redis.GetRefreshTokenErr = none ∧
      kvGet w.kv (getRefreshTokenKey claims.UserID) = some (.token t) ∧
      s.jwtHelper.GenerateTokenPair claims.UserID claims.Email = .ok p ∧
      s.redis.StoreRefreshTokenErr = none ∧
      r = ⟨p.AccessToken, p.RefreshToken, p.ExpiresIn, claims.UserID, claims.Email⟩ ∧
      w' = { w with kv := kvSet w.kv (getRefreshTokenKey claims.UserID) (.token p.RefreshToken) } := by
  unfold service.RefreshTokens at h
  split at h
  · simp at h
  · rename_i hne
    split at h
    · simp at h
    · rename_i claims hparse
      split at h
      · simp at h
      · rename_i hty
        split at h
        · simp at h
        · rename_i stored hget
          split at h
          · simp at h
          · rename_i hst
            split at h
            · simp at h
            · rename_i p hgen
              split at h
              · simp at h
              · rename_i w2 hstore
                simp only [Prod.mk.injEq, Result.ok.injEq] at h
                have hst' : stored = t := by simpa using hst
                subst hst'
                obtain ⟨hge, hkv⟩ := (GetRefreshToken_ok_iff _ _ _ _).1 hget
                obtain ⟨hse, hw⟩ := (storeRefreshToken_ok_iff _ _ _ _ _).1 hstore
                exact ⟨claims, p, hne, hparse, by simpa using hty, hge, hkv, hgen, hse,
                  h.1.symm, by rw [← h.2, hw]⟩

/-- What `RefreshTokens` does on a non-empty token that verifies as a refresh token
of a subject whose stored token is another string. -/
theorem RefreshTokens_mismatch (s : service) (w : World) (t stored : String) (claims : Claims)
    (hne : t ≠ "") (hp : s.jwtHelper.ParseJWT t = .ok claims) (hty : claims.Type_ = "refresh")
    (hg : s.redis.GetRefreshTokenErr = none)
    (hst : kvGet w.kv (getRefreshTokenKey claims.UserID) = some (.token stored))
    (hd : stored ≠ t) :
    s.RefreshTokens w t = (.err "неверный refresh token", w) := by
  have hget : s.redis.GetRefreshToken w.kv claims.UserID = .ok stored :=
    (GetRefreshToken_ok_iff _ _ _ _).2 ⟨hg, hst⟩
  simp [service.RefreshTokens, hne, hp, hty, hget, hd]

/-- What `RefreshTokens` does on a non-empty token that verifies as a refresh token
of a subject whose stored token it is, when the codec issues `p` and the store works. -/
theorem RefreshTokens_success (s : service) (w : World) (t : String) (claims : Claims)
    (p : TokenPair)
    (hne : t ≠ "") (hp : s.jwtHelper.ParseJWT t = .ok claims) (hty : claims.Type_ = "refresh")
    (hg : s.redis.GetRefreshTokenErr = none)
    (hst : kvGet w.kv (getRefreshTokenKey claims.UserID) = some (.token t))
    (hgen : s.jwtHelper.GenerateTokenPair claims.UserID claims.Email = .ok p)
    (hs : s.redis.StoreRefreshTokenErr = none) :
    s.RefreshTokens w t =
      (.ok ⟨p.AccessToken, p.RefreshToken, p.ExpiresIn, claims.UserID, claims.Email⟩,
       { w with kv := kvSet w.kv (getRefreshTokenKey claims.UserID) (.token p.RefreshToken) }) := by
  have hget : s.redis.GetRefreshToken w.kv claims.UserID = .ok t :=
    (GetRefreshToken_ok_iff _ _ _ _).2 ⟨hg, hst⟩
  have hstore := (storeRefreshToken_ok_iff s w _ claims.UserID p.RefreshToken).2 ⟨hs, rfl⟩
  simp [service.RefreshTokens, hne, hp, hty, hget, hgen, hstore]

theorem storedRefreshToken_kvSet (w : World) (u t : String) :
    storedRefreshToken { w with kv := kvSet w.kv (getRefreshTokenKey u) (.token t) } u = some t := by
  simp [storedRefreshToken, kvGet_kvSet_self]

theorem storedRefreshToken_eq_some (w : World) (u t : String) :
    storedRefreshToken w u = some t ↔ kvGet w.kv (getRefreshTokenKey u) = some (.token t) := by
  unfold storedRefreshToken
  cases h : kvGet w.kv (getRefreshTokenKey u) with
  | none => simp
  | some v => cases v <;> simp

/-- C1 (amended). After a successful `RefreshTokens(t)` that returned the refresh
token `t'`, the Session Store holds `t'` for the subject.  Whether `t'` differs
from `t` is up to the codec.  If it does, the codec verifies `t` as before and the
store can be read, a following `RefreshTokens(t)` fails with `TokenMismatch` and
changes nothing.  If `t'` is non-empty, the codec verifies it as a refresh token of
the same subject and email and issues a pair, and the store works, a following
`RefreshTokens(t')` succeeds with that pair. -/
theorem RefreshTokens_rotation (s s₂ : service) (w w' : World) (t : String) (r : AuthResponse)
    (h : s.RefreshTokens w t = (.ok r, w')) :
    storedRefreshToken w' r.UserID = some r.RefreshToken ∧
    (r.RefreshToken ≠ t → s₂.jwtHelper.ParseJWT t = s.jwtHelper.ParseJWT t →
      s₂.redis.GetRefreshTokenErr = none →
      s₂.RefreshTokens w' t = (.err TokenMismatch, w')) ∧
    (∀ p : TokenPair, r.RefreshToken ≠ "" →
      s₂.jwtHelper.ParseJWT r.RefreshToken = .ok ⟨r.UserID, r.Email, "refresh"⟩ →
      s₂.jwtHelper.GenerateTokenPair r.UserID r.Email = .ok p →
      s₂.redis.GetRefreshTokenErr = none → s₂.redis.StoreRefreshTokenErr = none →
      (s₂.RefreshTokens w' r.RefreshToken).1 =
        .ok ⟨p.AccessToken, p.RefreshToken, p.ExpiresIn, r.UserID, r.Email⟩) := by
  obtain ⟨claims, p0, hne, hp, hty, -, -, -, -, hr, hw⟩ := RefreshTokens_ok_inv s w w' t r h
  subst hr hw
  refine ⟨storedRefreshToken_kvSet w _ _, ?_, ?_⟩
  · intro hd hp2 hg
    exact RefreshTokens_mismatch s₂ _ t p0.RefreshToken claims hne (hp2.trans hp) hty hg
      (kvGet_kvSet_self _ _ _) hd
  · intro p hne2 hp2 hgen hg hs
    have := RefreshTokens_success s₂
      { w with kv := kvSet w.kv (getRefreshTokenKey claims.UserID) (.token p0.RefreshToken) }
      p0.RefreshToken ⟨claims.UserID, claims.Email, "refresh"⟩ p hne2 hp2 rfl hg
      (kvGet_kvSet_self _ _ _) hgen hs
    rw [this]

/-- Witness of `RefreshTokens_rotation`: the stored token `old` is rotated to `new`;
then `old` is rejected and `new` is accepted. -/
theorem RefreshTokens_rotation_witness :
    (demoService rotatingCodec).RefreshTokens (worldWith "old") "old" =
      (.ok ⟨"acc", "new", 900, "u1", "a@x.com"⟩, worldWith "new") ∧
    storedRefreshToken (worldWith "new") "u1" = some "new" ∧
    (demoService rotatingCodec).RefreshTokens (worldWith "new") "old" =
      (.err TokenMismatch, worldWith "new") ∧
    ((demoService rotatingCodec).RefreshTokens (worldWith "new") "new").1 =
      .ok ⟨"acc", "new", 900, "u1", "a@x.com"⟩ :=
  have h := RefreshTokens_rotation (demoService rotatingCodec) (demoService rotatingCodec)
    (worldWith "old") (worldWith "new") "old" ⟨"acc", "new", 900, "u1", "a@x.com"⟩ (by decide)
  ⟨by decide, h.1, h.2.1 (by decide) rfl rfl,
    h.2.2 ⟨"acc", "new", 900⟩ (by decide) rfl rfl rfl rfl⟩

/-- C1 (counterexample). With a codec that is a function of subject and email, the
scenario of the spec (register, then refresh at once) returns the very refresh token
that was submitted, and submitting it once more succeeds again instead of failing
with `TokenMismatch`. -/
theorem RefreshTokens_rotation_counterexample :
    (demoService fixedCodec).Register emptyWorld ⟨"a@x.com", "password1"⟩ =
      (.ok ⟨"access.u1.a@x.com", "refresh.u1.a@x.com", 900, "u1", "a@x.com"⟩,
       worldWith "refresh.u1.a@x.com") ∧
    (demoService fixedCodec).RefreshTokens (worldWith "refresh.u1.a@x.com") "refresh.u1.a@x.com" =
      (.ok ⟨"access.u1.a@x.com", "refresh.u1.a@x.com", 900, "u1", "a@x.com"⟩,
       worldWith "refresh.u1.a@x.com") ∧
    ((demoService fixedCodec).RefreshTokens (worldWith "refresh.u1.a@x.com")
      "refresh.u1.a@x.com").1 ≠ .err TokenMismatch := by
  decide

/-- What a successful `Register` went through. -/
theorem Register_ok_inv (s : service) (w w' : World) (req : RegisterRequest) (r : AuthResponse)
    (h : s.Register w req = (.ok r, w')) :
    ∃ (hash : String) (users : List User) (p : TokenPair),
      s.bcrypt.GenerateFromPassword req.Password = .ok hash ∧
      s.repo.CreateUser w.users (RegisterRequestToUser req hash) = .ok (r.UserID, users) ∧
      s.jwtHelper.GenerateTokenPair r.UserID req.Email = .ok p ∧
      s.redis.StoreRefreshTokenErr = none ∧
      r = ⟨p.AccessToken, p.RefreshToken, p.ExpiresIn, r.UserID, req.Email⟩ ∧
      w' = { kv := kvSet w.kv (getRefreshTokenKey r.UserID) (.token p.RefreshToken),
             users := users, outbox := w.outbox } := by
  unfold service.Register at h
  split at h
  · simp at h
  · rename_i hash hhash
    simp only at h
    split at h
    · simp at h
    · rename_i userID users hcreate
      split at h
      · simp at h
      · rename_i p hgen
        split at h
        · simp at h
        · rename_i w2 hstore
          simp only [Prod.mk.injEq, Result.ok.injEq] at h
          obtain ⟨hse, hw⟩ := (storeRefreshToken_ok_iff _ _ _ _ _).1 hstore
          obtain ⟨hr, hw2⟩ := h
          subst hr
          exact ⟨hash, users, p, hhash, hcreate, hgen, hse, rfl, by rw [← hw2, hw]⟩

/-- What a successful `Login` went through. -/
theorem Login_ok_inv (s : service) (w w' : World) (req : LoginRequest) (r : AuthResponse)
    (h : s.Login w req = (.ok r, w')) :
    ∃ (user : User) (hash : String) (p : TokenPair),
      s.repo.GetByEmailProvider w.users req.Email LocalProvider = .ok user ∧
      s.repo.GetPasswordHashByEmail w.users req.Email = .ok (some hash) ∧
      req.Password ≠ "" ∧
      s.bcrypt.CompareHashAndPassword hash req.Password = none ∧
      s.jwtHelper.GenerateTokenPair user.ID user.Email = .ok p ∧
      s.redis.StoreRefreshTokenErr = none ∧
      r = ⟨p.AccessToken, p.RefreshToken, p.ExpiresIn, user.ID, user.Email⟩ ∧
      w' = { w with kv := kvSet w.kv (getRefreshTokenKey user.ID) (.token p.RefreshToken) } := by
  unfold service.Login at h
  split at h
  · simp at h
  · rename_i user huser
    split at h
    · simp at h
    · rename_i ph hph
      split at h
      · simp at h
      · rename_i hpw
        split at h
        · simp at h
        · rename_i hash
          split at h
          · simp at h
          · rename_i hcmp
            split at h
            · simp at h
            · rename_i p hgen
              split at h
              · simp at h
              · rename_i w2 hstore
                simp only [Prod.mk.injEq, Result.ok.injEq] at h
                obtain ⟨hse, hw⟩ := (storeRefreshToken_ok_iff _ _ _ _ _).1 hstore
                exact ⟨user, hash, p, huser, hph, hpw, hcmp, hgen, hse, h.1.symm,
                  by rw [← h.2, hw]⟩

/-- A token accepted for a user is the token stored for that user. -/
theorem Accepted_stored (w : World) (u t : String) (h : Accepted w u t) :
    storedRefreshToken w u = some t := by
  obtain ⟨s, r, w', hr, hu⟩ := h
  obtain ⟨claims, p, -, -, -, -, hst, -, -, hreq, -⟩ := RefreshTokens_ok_inv s w w' t r hr
  have : claims.UserID = u := by rw [← hu, hreq]
  rw [← this]
  exact (storedRefreshToken_eq_some _ _ _).2 hst

/-- C2. Single active session.  In every state (reachable or not) at most one
string is accepted by `RefreshTokens` for a given user, whatever the collaborators
do; and right after a successful `Register`, `Login` or `RefreshTokens` the Session
Store holds, for the user of the response, exactly the refresh token of the
response, which is then the only string accepted for that user. -/
theorem single_active_session :
    (∀ (w : World) (u t₁ t₂ : String), Accepted w u t₁ → Accepted w u t₂ → t₁ = t₂) ∧
    (∀ (s : service) (w w' : World) (req : RegisterRequest) (r : AuthResponse),
      s.Register w req = (.ok r, w') →
        storedRefreshToken w' r.UserID = some r.RefreshToken ∧
        ∀ t, Accepted w' r.UserID t → t = r.RefreshToken) ∧
    (∀ (s : service) (w w' : World) (req : LoginRequest) (r : AuthResponse),
      s.Login w req = (.ok r, w') →
        storedRefreshToken w' r.UserID = some r.RefreshToken ∧
        ∀ t, Accepted w' r.UserID t → t = r.RefreshToken) ∧
    (∀ (s : service) (w w' : World) (t₀ : String) (r : AuthResponse),
      s.RefreshTokens w t₀ = (.ok r, w') →
        storedRefreshToken w' r.UserID = some r.RefreshToken ∧
        ∀ t, Accepted w' r.UserID t → t = r.RefreshToken) := by
  have key : ∀ (w : World) (u t₀ : String), storedRefreshToken w u = some t₀ →
      ∀ t, Accepted w u t → t = t₀ := by
    intro w u t₀ h t ht
    have := Accepted_stored w u t ht
    rw [h] at this
    exact (Option.some.inj this).symm
  refine ⟨?_, ?_, ?_, ?_⟩
  · intro w u t₁ t₂ h₁ h₂
    exact key w u t₂ (Accepted_stored w u t₂ h₂) t₁ h₁
  · intro s w w' req r h
    obtain ⟨hash, users, p, -, -, -, -, hr, hw⟩ := Register_ok_inv s w w' req r h
    have hst : storedRefreshToken w' r.UserID = some r.RefreshToken := by
      rw [hw, hr]
      simp [storedRefreshToken, kvGet_kvSet_self]
    exact ⟨hst, key _ _ _ hst⟩
  · intro s w w' req r h
    obtain ⟨user, hash, p, -, -, -, -, -, -, hr, hw⟩ := Login_ok_inv s w w' req r h
    have hst : storedRefreshToken w' r.UserID = some r.RefreshToken := by
      rw [hw, hr]
      exact storedRefreshToken_kvSet w _ _
    exact ⟨hst, key _ _ _ hst⟩
  · intro s w w' t₀ r h
    obtain ⟨claims, p, -, -, -, -, -, -, -, hr, hw⟩ := RefreshTokens_ok_inv s w w' t₀ r h
    have hst : storedRefreshToken w' r.UserID = some r.RefreshToken := by
      rw [hw, hr]
      exact storedRefreshToken_kvSet w _ _
    exact ⟨hst, key _ _ _ hst⟩

/-- Witness of `single_active_session`: the token `old` is accepted for `u1` where it
is stored; after a registration, a login and a refresh the store holds the token
just returned. -/
theorem single_active_session_witness :
    Accepted (worldWith "old") "u1" "old" ∧
    "old" = "old" ∧
    storedRefreshToken (worldWith "refresh.u1.a@x.com") "u1" = some "refresh.u1.a@x.com" ∧
    storedRefreshToken (worldWith "new") "u1" = some "new" :=
  have hacc : Accepted (worldWith "old") "u1" "old" :=
    ⟨demoService rotatingCodec, ⟨"acc", "new", 900, "u1", "a@x.com"⟩, worldWith "new",
      by decide, rfl⟩
  ⟨hacc, single_active_session.1 (worldWith "old") "u1" "old" "old" hacc hacc,
    (single_active_session.2.1 (demoService fixedCodec) emptyWorld
      (worldWith "refresh.u1.a@x.com") ⟨"a@x.com", "password1"⟩
      ⟨"access.u1.a@x.com", "refresh.u1.a@x.com", 900, "u1", "a@x.com"⟩ (by decide)).1,
    (single_active_session.2.2.1 (demoService rotatingCodec) (worldWith "old")
      (worldWith "new") ⟨"a@x.com", "password1"⟩
      ⟨"acc", "new", 900, "u1", "a@x.com"⟩ (by decide)).1⟩

/-- The two lookups of `Login` fail when no row has the email under provider `local`. -/
theorem GetByEmailProvider_error_of_no_local (r : Repository) (users : List User)
    (email : String)
    (h : ∀ u ∈ users, u.Email = email → u.Provider ≠ LocalProvider) :
    ∃ e, r.GetByEmailProvider users email LocalProvider = .error e := by
  unfold Repository.GetByEmailProvider
  cases r.GetByEmailProviderErr with
  | some e => exact ⟨e, rfl⟩
  | none =>
    cases hf : users.find? (fun u => decide (u.Email = email ∧ u.Provider = LocalProvider)) with
    | none => exact ⟨ErrNotFound, rfl⟩
    | some u =>
      have hm := List.mem_of_find?_eq_some hf
      have hp := List.find?_some hf
      simp only [decide_eq_true_eq] at hp
      exact absurd hp.2 (h u hm hp.1)

/-- C3. `Login` is non-enumerating.  When no row has the email (unknown email),
when the rows with the email are all under a non-local provider, when the password
hash cannot be fetched, when the supplied password is empty, and when the password
does not match the hash, `Login` returns one and the same error,
`InvalidCredentials`, and leaves the Session Store (and everything else) as it was. -/
theorem Login_non_enumerating (s : service) (w : World) (req : LoginRequest)
    (h : (∀ u ∈ w.users, u.Email ≠ req.Email) ∨
         (∀ u ∈ w.users, u.Email = req.Email → u.Provider ≠ LocalProvider) ∨
         (∃ e, s.repo.GetPasswordHashByEmail w.users req.Email = .error e) ∨
         req.Password = "" ∨
         (∃ hash e, s.repo.GetPasswordHashByEmail w.users req.Email = .ok (some hash) ∧
            s.bcrypt.CompareHashAndPassword hash req.Password = some e)) :
    s.Login w req = (.err InvalidCredentials, w) := by
  unfold service.Login
  rcases h with h | h | h | h | h
  · obtain ⟨e, he⟩ := GetByEmailProvider_error_of_no_local s.repo w.users req.Email
      (fun u hu he => absurd he (h u hu))
    simp [he, InvalidCredentials]
  · obtain ⟨e, he⟩ := GetByEmailProvider_error_of_no_local s.repo w.users req.Email h
    simp [he, InvalidCredentials]
  · obtain ⟨e, he⟩ := h
    cases s.repo.GetByEmailProvider w.users req.Email LocalProvider <;>
      simp [he, InvalidCredentials]
  · cases s.repo.GetByEmailProvider w.users req.Email LocalProvider with
    | error e => simp [InvalidCredentials]
    | ok user =>
      cases s.repo.GetPasswordHashByEmail w.users req.Email <;> simp [h, InvalidCredentials]
  · obtain ⟨hash, e, hh, hc⟩ := h
    cases s.repo.GetByEmailProvider w.users req.Email LocalProvider with
    | error e => simp [InvalidCredentials]
    | ok user =>
      by_cases hpw : req.Password = ""
      · simp [hh, hpw, InvalidCredentials]
      · simp [hh, hpw, hc, InvalidCredentials]

/-- Witness of `Login_non_enumerating`: the five cases on concrete requests. -/
theorem Login_non_enumerating_witness :
    (demoService fixedCodec).Login (worldWith "old") ⟨"nobody@x.com", "password1"⟩ =
      (.err InvalidCredentials, worldWith "old") ∧
    (demoService fixedCodec).Login worldExternal ⟨"b@x.com", "password1"⟩ =
      (.err InvalidCredentials, worldExternal) ∧
    ({ demoService fixedCodec with
        repo := { repoUp "u1" with GetPasswordHashByEmailErr := some "connection refused" } }
      : service).Login (worldWith "old") ⟨"a@x.com", "password1"⟩ =
      (.err InvalidCredentials, worldWith "old") ∧
    (demoService fixedCodec).Login (worldWith "old") ⟨"a@x.com", ""⟩ =
      (.err InvalidCredentials, worldWith "old") ∧
    (demoService fixedCodec).Login (worldWith "old") ⟨"a@x.com", "password2"⟩ =
      (.err InvalidCredentials, worldWith "old") :=
  ⟨Login_non_enumerating _ _ _ (Or.inl (by decide)),
   Login_non_enumerating _ _ _ (Or.inr (Or.inl (by decide))),
   Login_non_enumerating _ _ _ (Or.inr (Or.inr (Or.inl ⟨"connection refused", rfl⟩))),
   Login_non_enumerating _ _ _ (Or.inr (Or.inr (Or.inr (Or.inl rfl)))),
   Login_non_enumerating _ _ _ (Or.inr (Or.inr (Or.inr (Or.inr
     ⟨"salt:password1", "hashedPassword is not the hash of the given password", rfl, rfl⟩))))⟩

/-- C4. A non-empty token that the codec verifies with a decoded type other than
`refresh` is rejected with `WrongTokenType`, whatever the Session Store holds and
whatever the codec would issue; the world is left as it was. -/
theorem RefreshTokens_wrong_type (s : service) (w : World) (t : String) (claims : Claims)
    (hne : t ≠ "") (hp : s.jwtHelper.ParseJWT t = .ok claims)
    (hty : claims.Type_ ≠ "refresh") :
    s.RefreshTokens w t = (.err WrongTokenType, w) := by
  simp [service.RefreshTokens, hne, hp, hty, WrongTokenType]

/-- Witness of `RefreshTokens_wrong_type`: an access token is rejected even where
that very string is stored as the refresh token of its subject. -/
theorem RefreshTokens_wrong_type_witness :
    storedRefreshToken (worldWith "access.u1.a@x.com") "u1" = some "access.u1.a@x.com" ∧
    (demoService fixedCodec).RefreshTokens (worldWith "access.u1.a@x.com") "access.u1.a@x.com" =
      (.err WrongTokenType, worldWith "access.u1.a@x.com") :=
  ⟨by decide,
   RefreshTokens_wrong_type (demoService fixedCodec) (worldWith "access.u1.a@x.com")
     "access.u1.a@x.com" ⟨"u1", "a@x.com", "access"⟩ (by decide) rfl (by decide)⟩

/-- What a successful `Logout` does. -/
theorem Logout_ok_inv (s : service) (w w' : World) (u : String)
    (h : s.Logout w u = (none, w')) :
    s.redis.DeleteRefreshTokenErr = none ∧
    w' = { w with kv := kvDelete w.kv (getRefreshTokenKey u) } := by
  unfold service.Logout RedisService.DeleteRefreshToken at h
  cases hd : s.redis.DeleteRefreshTokenErr with
  | some e => simp [hd] at h
  | none =>
    simp only [hd, Prod.mk.injEq, true_and] at h
    exact ⟨rfl, h.symm⟩

/-- C5. After a successful `Logout(u)` no refresh token is stored for `u`, and a
following `RefreshTokens(t)` with a token `t` of `u` (non-empty, verified by the
codec as a refresh token of `u`; in particular the token that was stored for `u`)
fails with `TokenNotFound` and changes nothing. -/
theorem Logout_then_RefreshTokens (s₁ s₂ : service) (w w' : World) (u t : String)
    (claims : Claims)
    (hne : t ≠ "")
    (hp : s₂.jwtHelper.ParseJWT t = .ok claims) (hty : claims.Type_ = "refresh")
    (hu : claims.UserID = u)
    (hl : s₁.Logout w u = (none, w')) :
    storedRefreshToken w' u = none ∧
    s₂.RefreshTokens w' t = (.err TokenNotFound, w') := by
  obtain ⟨-, hw⟩ := Logout_ok_inv s₁ w w' u hl
  have hk : kvGet w'.kv (getRefreshTokenKey u) = none := by
    rw [hw]
    exact kvGet_kvDelete_self _ _
  have hget : ∃ e, s₂.redis.GetRefreshToken w'.kv claims.UserID = .error e := by
    unfold RedisService.GetRefreshToken
    cases s₂.redis.GetRefreshTokenErr with
    | some e => exact ⟨e, rfl⟩
    | none => exact ⟨ErrMissing, by simp [hu, hk]⟩
  obtain ⟨e, he⟩ := hget
  refine ⟨by simp [storedRefreshToken, hk], ?_⟩
  simp [service.RefreshTokens, hne, hp, hty, he, TokenNotFound]

/-- Witness of `Logout_then_RefreshTokens`: `old` is stored for `u1`, who logs out. -/
theorem Logout_then_RefreshTokens_witness :
    storedRefreshToken (worldWith "old") "u1" = some "old" ∧
    (demoService rotatingCodec).Logout (worldWith "old") "u1" =
      (none, { worldWith "old" with kv := [] }) ∧
    (demoService rotatingCodec).RefreshTokens { worldWith "old" with kv := [] } "old" =
      (.err TokenNotFound, { worldWith "old" with kv := [] }) :=
  ⟨by decide, by decide,
   (Logout_then_RefreshTokens (demoService rotatingCodec) (demoService rotatingCodec)
     (worldWith "old") { worldWith "old" with kv := [] } "u1" "old"
     ⟨"u1", "a@x.com", "refresh"⟩ (by decide) rfl rfl rfl (by decide)).2⟩

/-- What a successful `ConfirmEmail` went through: the token is non-empty and mapped
to a user, that user is marked, and the mapping is deleted unless deleting failed. -/
theorem ConfirmEmail_ok_inv (s : service) (w w' : World) (token : String)
    (h : s.ConfirmEmail w token = (none, w')) :
    ∃ (userID email : String) (users : List User),
      token ≠ "" ∧ s.redis.GetEmailConfirmationUserIDErr = none ∧
      kvGet w.kv (getEmailConfirmationKey token) = some (.confirmation userID email) ∧
      s.repo.MakeEmailConfirmed w.users userID = .ok users ∧
      ((s.redis.DeleteEmailConfirmationErr = none ∧
          w' = { kv := kvDelete w.kv (getEmailConfirmationKey token), users := users,
                 outbox := w.outbox }) ∨
       (s.redis.DeleteEmailConfirmationErr ≠ none ∧ w' = { w with users := users })) := by
  unfold service.ConfirmEmail at h
  split at h
  · simp at h
  · rename_i hne
    split at h
    · simp at h
    · rename_i userID hget
      split at h
      · simp at h
      · rename_i users hmark
        have hget' : s.redis.GetEmailConfirmationUserIDErr = none ∧
            ∃ email, kvGet w.kv (getEmailConfirmationKey token) =
              some (.confirmation userID email) := by
          unfold RedisService.GetEmailConfirmationUserID at hget
          cases hg : s.redis.GetEmailConfirmationUserIDErr with
          | some e => simp [hg] at hget
          | none =>
            cases hk : kvGet w.kv (getEmailConfirmationKey token) with
            | none => simp [hg, hk] at hget
            | some v =>
              cases v with
              | token t => simp [hg, hk] at hget
              | confirmation u e =>
                simp only [hg, hk, Except.ok.injEq] at hget
                exact ⟨rfl, e, by rw [hget]⟩
        obtain ⟨hge, email, hk⟩ := hget'
        refine ⟨userID, email, users, hne, hge, hk, hmark, ?_⟩
        unfold RedisService.DeleteEmailConfirmation at h
        cases hd : s.redis.DeleteEmailConfirmationErr with
        | some e =>
          simp only [hd, Prod.mk.injEq, true_and] at h
          exact Or.inr ⟨by simp, h.symm⟩
        | none =>
          simp only [hd, Prod.mk.injEq, true_and] at h
          exact Or.inl ⟨rfl, h.symm⟩

/-- A token without a mapping is rejected by `ConfirmEmail`. -/
theorem ConfirmEmail_unmapped (s : service) (w : World) (token : String) (hne : token ≠ "")
    (hk : kvGet w.kv (getEmailConfirmationKey token) = none) :
    s.ConfirmEmail w token = (some "неверная или устаревшая ссылка подтверждения", w) := by
  have hget : ∃ e, s.redis.GetEmailConfirmationUserID w.kv token = .error e := by
    unfold RedisService.GetEmailConfirmationUserID
    cases s.redis.GetEmailConfirmationUserIDErr with
    | some e => exact ⟨e, rfl⟩
    | none => exact ⟨ErrMissing, by simp [hk]⟩
  obtain ⟨e, he⟩ := hget
  simp [service.ConfirmEmail, hne, he]

/-- C6 (amended). When `ConfirmEmail(T)` succeeds and the deletion of the mapping did
not fail, the mapping of `T` is gone, and a second `ConfirmEmail(T)` fails with
`InvalidOrExpiredToken` and changes nothing. -/
theorem ConfirmEmail_single_use (s₁ s₂ : service) (w w' : World) (T : String)
    (h : s₁.ConfirmEmail w T = (none, w'))
    (hdel : s₁.redis.DeleteEmailConfirmationErr = none) :
    kvGet w'.kv (getEmailConfirmationKey T) = none ∧
    s₂.ConfirmEmail w' T = (some InvalidOrExpiredToken, w') := by
  obtain ⟨userID, email, users, hne, -, -, -, hw⟩ := ConfirmEmail_ok_inv s₁ w w' T h
  rcases hw with ⟨-, hw⟩ | ⟨hd, -⟩
  · have hk : kvGet w'.kv (getEmailConfirmationKey T) = none := by
      rw [hw]
      exact kvGet_kvDelete_self _ _
    exact ⟨hk, ConfirmEmail_unmapped s₂ w' T hne hk⟩
  · exact absurd hdel hd

/-- Witness of `ConfirmEmail_single_use`. -/
theorem ConfirmEmail_single_use_witness :
    (demoService fixedCodec).ConfirmEmail worldPending demoToken = (none, worldConfirmed) ∧
    kvGet worldConfirmed.kv (getEmailConfirmationKey demoToken) = none ∧
    (demoService fixedCodec).ConfirmEmail worldConfirmed demoToken =
      (some InvalidOrExpiredToken, worldConfirmed) :=
  ⟨by decide,
   ConfirmEmail_single_use (demoService fixedCodec) (demoService fixedCodec) worldPending
     worldConfirmed demoToken (by decide) rfl⟩

/-- C6 (counterexample). When deleting the mapping fails, `ConfirmEmail(T)` still
succeeds, the mapping of `T` stays in the Session Store, and a second
`ConfirmEmail(T)` succeeds again. -/
theorem ConfirmEmail_single_use_counterexample :
    serviceDeleteFails.ConfirmEmail worldPending demoToken = (none, worldConfirmedKept) ∧
    kvGet worldConfirmedKept.kv (getEmailConfirmationKey demoToken) =
      some (.confirmation "u1" "a@x.com") ∧
    (demoService fixedCodec).ConfirmEmail worldConfirmedKept demoToken =
      (none, worldConfirmed) := by
  decide

theorem hexEncodeToString_ne_empty (bs : List (Fin 256)) (h : bs ≠ []) :
    hexEncodeToString bs ≠ "" := by
  cases bs with
  | nil => exact absurd rfl h
  | cons b rest =>
    intro he
    have := congrArg String.data he
    simp [hexEncodeToString] at this

theorem ByteSlice_ne_nil (b : ByteSlice 32) : b.val ≠ [] := by
  intro h
  have := b.property
  rw [h] at this
  simp at this

/-- What a successful `SendConfirmationLink` stored. -/
theorem SendConfirmationLink_ok_inv (s : service) (w w' : World)
    (req : SendConfirmationEmailRequest) (userID : String)
    (h : s.SendConfirmationLink w req userID = (none, w')) :
    ∃ rawToken : ByteSlice 32,
      userID ≠ "" ∧ req.Email ≠ "" ∧ s.rand.Read 32 = .ok rawToken ∧
      s.redis.StoreEmailConfirmationErr = none ∧
      w'.kv = kvSet w.kv (getEmailConfirmationKey (hexEncodeToString rawToken.val))
        (.confirmation userID req.Email) ∧
      w'.users = w.users := by
  unfold service.SendConfirmationLink at h
  split at h
  · simp at h
  · rename_i hne
    simp only [not_or] at hne
    split at h
    · simp at h
    · rename_i rawToken hrand
      simp only at h
      split at h
      · simp at h
      · rename_i kv hstore
        have hs : s.redis.StoreEmailConfirmationErr = none ∧
            kv = kvSet w.kv (getEmailConfirmationKey (hexEncodeToString rawToken.val))
              (.confirmation userID req.Email) := by
          unfold RedisService.StoreEmailConfirmation at hstore
          cases hd : s.redis.StoreEmailConfirmationErr with
          | some e => simp [hd] at hstore
          | none =>
            simp only [hd, Except.ok.injEq] at hstore
            exact ⟨rfl, hstore.symm⟩
        refine ⟨rawToken, hne.1, hne.2, hrand, hs.1, ?_⟩
        split at h
        · split at h <;>
          · simp only [Prod.mk.injEq, true_and] at h
            rw [← h]
            exact ⟨hs.2, rfl⟩
        · simp only [Prod.mk.injEq, true_and] at h
          rw [← h]
          exact ⟨hs.2, rfl⟩

/-- Marking preserves ids, so a lookup by id after marking finds the marked row. -/
theorem find?_ID_map_mark (users : List User) (U id : String) :
    (users.map (fun u => if u.ID = U then { u with EmailConfirmed := true } else u)).find?
        (fun u => decide (u.ID = id)) =
      (users.find? (fun u => decide (u.ID = id))).map
        (fun u => if u.ID = U then { u with EmailConfirmed := true } else u) := by
  induction users with
  | nil => rfl
  | cons a rest ih =>
    have hid : (if a.ID = U then { a with EmailConfirmed := true } else a).ID = a.ID := by
      split <;> rfl
    rw [List.map_cons, List.find?_cons, List.find?_cons, hid]
    cases hd : decide (a.ID = id) with
    | true => rfl
    | false => exact ih

theorem MakeEmailConfirmed_ok (r : Repository) (users : List User) (U : String)
    (hr : r.MakeEmailConfirmedErr = none) (hU : ∃ u ∈ users, u.ID = U) :
    r.MakeEmailConfirmed users U =
      .ok (users.map (fun u => if u.ID = U then { u with EmailConfirmed := true } else u)) := by
  have : users.any (fun u => decide (u.ID = U)) = true := by
    simpa [List.any_eq_true] using hU
  simp [Repository.MakeEmailConfirmed, hr, this]

/-- C7. Confirmation handshake.  For an existing user `U` and an email (non-empty,
or the call would not succeed), after `SendConfirmationLink(U, email)` has
succeeded, having stored the token `T` built from the random draw, a following `ConfirmEmail(T)` (with the Session Store
readable and the Credential Store writable) succeeds and sets `emailConfirmed` of the
rows with id `U` and of no other row, and `IsEmailConfirmed(U)` (with the Credential
Store readable) then returns `true`. -/
theorem confirmation_handshake (s₁ s₂ s₃ : service) (errLoad : Error) (w w₁ : World)
    (U email : String) (rawToken : ByteSlice 32)
    (hU : ∃ u ∈ w.users, u.ID = U)
    (hrand : s₁.rand.Read 32 = .ok rawToken)
    (hsend : s₁.SendConfirmationLink w ⟨email⟩ U = (none, w₁))
    (hget : s₂.redis.GetEmailConfirmationUserIDErr = none)
    (hmark : s₂.repo.MakeEmailConfirmedErr = none)
    (hbyid : s₃.repo.GetByIDErr = none) :
    kvGet w₁.kv (getEmailConfirmationKey (hexEncodeToString rawToken.val)) =
      some (.confirmation U email) ∧
    ∃ w₂, s₂.ConfirmEmail w₁ (hexEncodeToString rawToken.val) = (none, w₂) ∧
      w₂.users =
        w.users.map (fun u => if u.ID = U then { u with EmailConfirmed := true } else u) ∧
      s₃.IsEmailConfirmed errLoad w₂ U = (true, none) := by
  obtain ⟨raw, -, -, hrand', -, hkv, husers⟩ := SendConfirmationLink_ok_inv s₁ w w₁ ⟨email⟩ U hsend
  have hraw : raw = rawToken := by
    rw [hrand] at hrand'
    exact (Except.ok.inj hrand').symm
  subst hraw
  have hk : kvGet w₁.kv (getEmailConfirmationKey (hexEncodeToString raw.val)) =
      some (.confirmation U email) := by
    rw [hkv]
    exact kvGet_kvSet_self _ _ _
  have hne := hexEncodeToString_ne_empty raw.val (ByteSlice_ne_nil raw)
  have hgetU : s₂.redis.GetEmailConfirmationUserID w₁.kv (hexEncodeToString raw.val) = .ok U := by
    simp [RedisService.GetEmailConfirmationUserID, hget, hk]
  have hU₁ : ∃ u ∈ w₁.users, u.ID = U := by rw [husers]; exact hU
  have hmk := MakeEmailConfirmed_ok s₂.repo w₁.users U hmark hU₁
  have hlook : ∀ (kv : KV),
      s₃.IsEmailConfirmed errLoad
        { kv := kv,
          users := w₁.users.map
            (fun u => if u.ID = U then { u with EmailConfirmed := true } else u),
          outbox := w₁.outbox } U = (true, none) := by
    intro kv
    obtain ⟨u, hu, huid⟩ := hU₁
    have hsome : ∃ v, w₁.users.find? (fun u => decide (u.ID = U)) = some v := by
      cases hf : w₁.users.find? (fun u => decide (u.ID = U)) with
      | some v => exact ⟨v, rfl⟩
      | none =>
        have := List.find?_eq_none.1 hf u hu
        simp [huid] at this
    obtain ⟨v, hv⟩ := hsome
    have hvid : v.ID = U := by
      have := List.find?_some hv
      simpa using this
    unfold service.IsEmailConfirmed Repository.GetByID
    simp only [hbyid]
    rw [find?_ID_map_mark, hv]
    simp [hvid]
  refine ⟨hk, ?_⟩
  unfold service.ConfirmEmail
  simp only [hne, if_false, hgetU, hmk]
  unfold RedisService.DeleteEmailConfirmation
  cases s₂.redis.DeleteEmailConfirmationErr with
  | some e => exact ⟨_, rfl, by rw [husers], hlook _⟩
  | none => exact ⟨_, rfl, by rw [husers], hlook _⟩

/-- Witness of `confirmation_handshake`: user `u1`, email `a@x.com`, the token
`demoToken`. -/
theorem confirmation_handshake_witness :
    (demoService fixedCodec).SendConfirmationLink (worldWith "old") ⟨"a@x.com"⟩ "u1" =
      (none, worldSent "old") ∧
    kvGet (worldSent "old").kv (getEmailConfirmationKey demoToken) =
      some (.confirmation "u1" "a@x.com") ∧
    ∃ w₂, (demoService fixedCodec).ConfirmEmail (worldSent "old") demoToken = (none, w₂) ∧
      w₂.users = [⟨"u1", "a@x.com", some "salt:password1", "local", true⟩] ∧
      (demoService fixedCodec).IsEmailConfirmed "load failed" w₂ "u1" = (true, none) :=
  ⟨by decide,
   confirmation_handshake (demoService fixedCodec) (demoService fixedCodec)
     (demoService fixedCodec) "load failed" (worldWith "old") (worldSent "old") "u1" "a@x.com"
     ⟨List.replicate 32 0xab, List.length_replicate 32 _⟩
     ⟨_, List.mem_singleton.2 rfl, rfl⟩ rfl (by decide) rfl rfl rfl⟩

/-- C8 (amended). When `Register` succeeds, the response carries exactly the pair `p`
the codec issued for the id of the newly created user and the request email
(access token, refresh token and `ExpiresIn` unchanged), its `UserID` is that id and
its `Email` the request email, and the Session Store holds the returned refresh
token under that id.  Hence, given a codec whose verify inverts issuePair, both
returned tokens decode to that subject and email; and `ExpiresIn` is positive
exactly when the codec's is. -/
theorem Register_success (s : service) (w w' : World) (req : RegisterRequest)
    (r : AuthResponse) (h : s.Register w req = (.ok r, w')) :
    ∃ (hash : String) (users : List User) (p : TokenPair),
      s.repo.CreateUser w.users (RegisterRequestToUser req hash) = .ok (r.UserID, users) ∧
      s.jwtHelper.GenerateTokenPair r.UserID req.Email = .ok p ∧
      r = ⟨p.AccessToken, p.RefreshToken, p.ExpiresIn, r.UserID, req.Email⟩ ∧
      storedRefreshToken w' r.UserID = some r.RefreshToken ∧
      (VerifyInvertsIssue s.jwtHelper →
        (∃ c, s.jwtHelper.ParseJWT r.AccessToken = .ok c ∧
          c.UserID = r.UserID ∧ c.Email = r.Email) ∧
        (∃ c, s.jwtHelper.ParseJWT r.RefreshToken = .ok c ∧
          c.UserID = r.UserID ∧ c.Email = r.Email)) ∧
      (0 < r.ExpiresIn ↔ 0 < p.ExpiresIn) := by
  obtain ⟨hash, users, p, -, hcreate, hgen, -, hr, hw⟩ := Register_ok_inv s w w' req r h
  have hst : storedRefreshToken w' r.UserID = some r.RefreshToken := by
    rw [hw, hr]
    simp [storedRefreshToken, kvGet_kvSet_self]
  have hA : r.AccessToken = p.AccessToken := by rw [hr]
  have hR : r.RefreshToken = p.RefreshToken := by rw [hr]
  have hE : r.ExpiresIn = p.ExpiresIn := by rw [hr]
  have hM : r.Email = req.Email := by rw [hr]
  refine ⟨hash, users, p, hcreate, hgen, hr, hst, ?_, by rw [hE]⟩
  intro hinv
  have := hinv r.UserID req.Email p hgen
  rw [hA, hR, hM]
  exact this

theorem VerifyInvertsIssue_lifetimeCodec (n : Int) : VerifyInvertsIssue (lifetimeCodec n) := by
  intro subject email p hp
  simp only [lifetimeCodec] at hp
  split at hp
  · rename_i hc
    have hp' := (Except.ok.inj hp).symm
    subst hp'
    obtain ⟨h1, h2⟩ := hc
    subst h1 h2
    exact ⟨⟨_, rfl, rfl, rfl⟩, ⟨_, rfl, rfl, rfl⟩⟩
  · simp at hp

/-- Witness of `Register_success`: registration of `a@x.com` with a codec whose
verify inverts issuePair: the refresh token is stored for the new user `u1` and both
tokens decode to `u1` and `a@x.com`. -/
theorem Register_success_witness :
    (demoService (lifetimeCodec 900)).Register emptyWorld ⟨"a@x.com", "password1"⟩ =
      (.ok ⟨"A", "R", 900, "u1", "a@x.com"⟩, worldWith "R") ∧
    storedRefreshToken (worldWith "R") "u1" = some "R" ∧
    (∃ c, (lifetimeCodec 900).ParseJWT "A" = .ok c ∧ c.UserID = "u1" ∧ c.Email = "a@x.com") ∧
    (∃ c, (lifetimeCodec 900).ParseJWT "R" = .ok c ∧ c.UserID = "u1" ∧ c.Email = "a@x.com") :=
  match Register_success (demoService (lifetimeCodec 900)) emptyWorld (worldWith "R")
      ⟨"a@x.com", "password1"⟩ ⟨"A", "R", 900, "u1", "a@x.com"⟩ (by decide) with
  | ⟨_, _, _, _, _, _, hst, hdec, _⟩ =>
    ⟨by decide, hst, (hdec (VerifyInvertsIssue_lifetimeCodec 900)).1,
      (hdec (VerifyInvertsIssue_lifetimeCodec 900)).2⟩

/-- C8 (counterexample). A codec whose verify inverts issuePair may issue
`ExpiresIn = 0`; `Register` then succeeds with `expiresIn = 0`, which is not `> 0`. -/
theorem Register_success_counterexample :
    VerifyInvertsIssue (lifetimeCodec 0) ∧
    (demoService (lifetimeCodec 0)).Register emptyWorld ⟨"a@x.com", "password1"⟩ =
      (.ok ⟨"A", "R", 0, "u1", "a@x.com"⟩, worldWith "R") ∧
    ¬ (0 < (⟨"A", "R", 0, "u1", "a@x.com"⟩ : AuthResponse).ExpiresIn) :=
  ⟨VerifyInvertsIssue_lifetimeCodec 0, by decide, by decide⟩

/-- C9 (amended). `Register` fails with the error `createUser` reported, unchanged
(so with `DuplicateEmail` on a uniqueness violation), and with one and the same
generic error when hashing fails, when the codec fails and when storing the refresh
token fails: these three results are not distinguishable from one another. -/
theorem Register_failures (s : service) (w : World) (req : RegisterRequest) :
    (∀ e, s.bcrypt.GenerateFromPassword req.Password = .error e →
      s.Register w req = (.err HashingFailure, w)) ∧
    (∀ hash e, s.bcrypt.GenerateFromPassword req.Password = .ok hash →
      s.repo.CreateUser w.users (RegisterRequestToUser req hash) = .error e →
      s.Register w req = (.err e, w)) ∧
    (∀ hash, s.bcrypt.GenerateFromPassword req.Password = .ok hash →
      s.repo.CreateUserErr = none → (∃ u ∈ w.users, u.Email = req.Email) →
      s.Register w req = (.err ErrDuplicateEmail, w)) ∧
    (∀ hash id users e, s.bcrypt.GenerateFromPassword req.Password = .ok hash →
      s.repo.CreateUser w.users (RegisterRequestToUser req hash) = .ok (id, users) →
      s.jwtHelper.GenerateTokenPair id req.Email = .error e →
      s.Register w req = (.err TokenIssuanceFailure, { w with users := users })) ∧
    (∀ hash id users p e, s.bcrypt.GenerateFromPassword req.Password = .ok hash →
      s.repo.CreateUser w.users (RegisterRequestToUser req hash) = .ok (id, users) →
      s.jwtHelper.GenerateTokenPair id req.Email = .ok p →
      s.redis.StoreRefreshTokenErr = some e →
      s.Register w req = (.err PersistenceFailure, { w with users := users })) ∧
    HashingFailure = TokenIssuanceFailure ∧ TokenIssuanceFailure = PersistenceFailure := by
  refine ⟨?_, ?_, ?_, ?_, ?_, rfl, rfl⟩
  · intro e he
    simp [service.Register, he, HashingFailure]
  · intro hash e hh hc
    simp [service.Register, hh, hc]
  · intro hash hh hc hdup
    have hany : w.users.any (fun u => decide (u.Email = req.Email)) = true := by
      simpa [List.any_eq_true] using hdup
    have : s.repo.CreateUser w.users (RegisterRequestToUser req hash) =
        .error ErrDuplicateEmail := by
      simp [Repository.CreateUser, hc, RegisterRequestToUser, hany]
    simp [service.Register, hh, this]
  · intro hash id users e hh hc hg
    simp [service.Register, hh, hc, hg, TokenIssuanceFailure]
  · intro hash id users p e hh hc hg hs
    simp [service.Register, hh, hc, hg, service.storeRefreshToken,
      RedisService.StoreRefreshToken, hs, PersistenceFailure]

/-- Witness of `Register_failures`: each failure on a concrete registration. -/
theorem Register_failures_witness :
    serviceHashFails.Register emptyWorld ⟨"a@x.com", "password1"⟩ =
      (.err HashingFailure, emptyWorld) ∧
    (serviceCreateFails "pq: connection refused").Register emptyWorld ⟨"a@x.com", "password1"⟩ =
      (.err "pq: connection refused", emptyWorld) ∧
    (demoService fixedCodec).Register (worldWith "old") ⟨"a@x.com", "password1"⟩ =
      (.err ErrDuplicateEmail, worldWith "old") ∧
    serviceCodecFails.Register emptyWorld ⟨"a@x.com", "password1"⟩ =
      (.err TokenIssuanceFailure, { emptyWorld with users := (worldWith "old").users }) ∧
    serviceStoreFails.Register emptyWorld ⟨"a@x.com", "password1"⟩ =
      (.err PersistenceFailure, { emptyWorld with users := (worldWith "old").users }) :=
  ⟨(Register_failures serviceHashFails emptyWorld ⟨"a@x.com", "password1"⟩).1 _ rfl,
   (Register_failures (serviceCreateFails "pq: connection refused") emptyWorld
      ⟨"a@x.com", "password1"⟩).2.1 "salt:password1" _ rfl rfl,
   (Register_failures (demoService fixedCodec) (worldWith "old")
      ⟨"a@x.com", "password1"⟩).2.2.1 "salt:password1" rfl rfl
      ⟨_, List.mem_singleton.2 rfl, rfl⟩,
   (Register_failures serviceCodecFails emptyWorld ⟨"a@x.com", "password1"⟩).2.2.2.1
      "salt:password1" "u1" _ "key is invalid" rfl rfl rfl,
   (Register_failures serviceStoreFails emptyWorld ⟨"a@x.com", "password1"⟩).2.2.2.2.1
      "salt:password1" "u1" _ ⟨"access.u1.a@x.com", "refresh.u1.a@x.com", 900⟩
      "connection refused" rfl rfl rfl rfl⟩

/-- C9 (counterexample). A registration whose hashing fails, one whose codec fails
and one whose refresh-token write fails return the same error to the caller. -/
theorem Register_failures_counterexample :
    (serviceHashFails.Register emptyWorld ⟨"a@x.com", "password1"⟩).1 =
      .err "произошла ошибка" ∧
    (serviceCodecFails.Register emptyWorld ⟨"a@x.com", "password1"⟩).1 =
      .err "произошла ошибка" ∧
    (serviceStoreFails.Register emptyWorld ⟨"a@x.com", "password1"⟩).1 =
      .err "произошла ошибка" := by
  decide

theorem sameResult_refl {α : Type} (a : Except Error α) : sameResult a a := by
  cases a <;> simp [sameResult]

theorem sameResult_cases {α : Type} (a b : Except Error α) (h : sameResult a b) :
    (∃ e₁ e₂, a = .error e₁ ∧ b = .error e₂) ∨ (∃ x, a = .ok x ∧ b = .ok x) := by
  cases a with
  | error e₁ =>
    cases b with
    | error e₂ => exact Or.inl ⟨e₁, e₂, rfl, rfl⟩
    | ok y => simp [sameResult] at h
  | ok x =>
    cases b with
    | error e₂ => simp [sameResult] at h
    | ok y =>
      simp only [sameResult] at h
      exact Or.inr ⟨x, rfl, by rw [h]⟩

theorem sameOutcome_cases (a b : Option Error) (h : sameOutcome a b) :
    (a = none ∧ b = none) ∨ (∃ e₁ e₂, a = some e₁ ∧ b = some e₂) := by
  cases a <;> cases b <;> simp [sameOutcome] at h ⊢

theorem GetByEmailProvider_same (r₁ r₂ : Repository) (users : List User)
    (email provider : String)
    (h : sameOutcome r₁.GetByEmailProviderErr r₂.GetByEmailProviderErr) :
    sameResult (r₁.GetByEmailProvider users email provider)
      (r₂.GetByEmailProvider users email provider) := by
  unfold Repository.GetByEmailProvider
  rcases sameOutcome_cases _ _ h with ⟨h₁, h₂⟩ | ⟨e₁, e₂, h₁, h₂⟩
  · rw [h₁, h₂]
    exact sameResult_refl _
  · rw [h₁, h₂]
    simp [sameResult]

theorem GetPasswordHashByEmail_same (r₁ r₂ : Repository) (users : List User)
    (email : String)
    (h : sameOutcome r₁.GetPasswordHashByEmailErr r₂.GetPasswordHashByEmailErr) :
    sameResult (r₁.GetPasswordHashByEmail users email)
      (r₂.GetPasswordHashByEmail users email) := by
  unfold Repository.GetPasswordHashByEmail
  rcases sameOutcome_cases _ _ h with ⟨h₁, h₂⟩ | ⟨e₁, e₂, h₁, h₂⟩
  · rw [h₁, h₂]
    exact sameResult_refl _
  · rw [h₁, h₂]
    simp [sameResult]

theorem storeRefreshToken_same (s₁ s₂ : service) (w : World) (u t : String)
    (h : sameOutcome s₁.redis.StoreRefreshTokenErr s₂.redis.StoreRefreshTokenErr) :
    sameResult (s₁.storeRefreshToken w u t) (s₂.storeRefreshToken w u t) := by
  unfold service.storeRefreshToken RedisService.StoreRefreshToken
  rcases sameOutcome_cases _ _ h with ⟨h₁, h₂⟩ | ⟨e₁, e₂, h₁, h₂⟩
  · rw [h₁, h₂]
    simp [sameResult]
  · rw [h₁, h₂]
    simp [sameResult]

/-- The tail of `Register` and `Login`: issue a pair and store its refresh token. -/
theorem issue_and_store_same (s₁ s₂ : service) (w w0 : World) (u e : String)
    (h : SameUpToErrorDetail s₁ s₂) :
    (match s₁.jwtHelper.GenerateTokenPair u e with
      | .error _ => ((.err "произошла ошибка" : Result AuthResponse), w0)
      | .ok tokenPair =>
        match s₁.storeRefreshToken w u tokenPair.RefreshToken with
        | .error _ => (.err "произошла ошибка", w0)
        | .ok w' =>
          (.ok { AccessToken := tokenPair.AccessToken, RefreshToken := tokenPair.RefreshToken,
                 ExpiresIn := tokenPair.ExpiresIn, UserID := u, Email := e }, w')) =
    (match s₂.jwtHelper.GenerateTokenPair u e with
      | .error _ => ((.err "произошла ошибка" : Result AuthResponse), w0)
      | .ok tokenPair =>
        match s₂.storeRefreshToken w u tokenPair.RefreshToken with
        | .error _ => (.err "произошла ошибка", w0)
        | .ok w' =>
          (.ok { AccessToken := tokenPair.AccessToken, RefreshToken := tokenPair.RefreshToken,
                 ExpiresIn := tokenPair.ExpiresIn, UserID := u, Email := e }, w')) := by
  rcases sameResult_cases _ _ (h.1 u e) with ⟨e₁, e₂, h₁, h₂⟩ | ⟨p, h₁, h₂⟩
  · rw [h₁, h₂]
  · rw [h₁, h₂]
    rcases sameResult_cases _ _ (storeRefreshToken_same s₁ s₂ w u p.RefreshToken h.2.2.1)
      with ⟨e₁, e₂, h₃, h₄⟩ | ⟨w', h₃, h₄⟩
    · simp only [h₃, h₄]
    · simp only [h₃, h₄]

/-- C10 (amended). Two runs that differ only in the detail of the errors reported by
the Credential Store, the Session Store or the Token Codec give the same result in
`Login`, and the same result in `Register` unless the failing step is `createUser`:
the error of `createUser` is returned to the caller unchanged.  Every other error of
`Login` and `Register` is one of two fixed messages. -/
theorem no_internal_cause_leaked (s₁ s₂ : service) (w : World)
    (h : SameUpToErrorDetail s₁ s₂) :
    (∀ req, s₁.Login w req = s₂.Login w req) ∧
    (∀ req, s₁.repo.CreateUserErr = s₂.repo.CreateUserErr →
      s₁.Register w req = s₂.Register w req) ∧
    (∀ req e, (s₁.Login w req).1 = .err e →
      e = InvalidCredentials ∨ e = TokenIssuanceFailure) ∧
    (∀ req e, (s₁.Register w req).1 = .err e →
      e = HashingFailure ∨
      ∃ hash, s₁.repo.CreateUser w.users (RegisterRequestToUser req hash) = .error e) := by
  refine ⟨?_, ?_, ?_, ?_⟩
  · intro req
    unfold service.Login
    rcases sameResult_cases _ _
      (GetByEmailProvider_same s₁.repo s₂.repo w.users req.Email LocalProvider h.2.2.2.2.2.2.1)
      with ⟨e₁, e₂, h₁, h₂⟩ | ⟨user, h₁, h₂⟩
    · rw [h₁, h₂]
    · rw [h₁, h₂]
      rcases sameResult_cases _ _
        (GetPasswordHashByEmail_same s₁.repo s₂.repo w.users req.Email h.2.2.2.2.2.2.2.1)
        with ⟨e₁, e₂, h₃, h₄⟩ | ⟨ph, h₃, h₄⟩
      · rw [h₃, h₄]
      · rw [h₃, h₄]
        simp only []
        by_cases hpw : req.Password = ""
        · simp only [hpw, if_true]
        · simp only [hpw, if_false]
          cases ph with
          | none => rfl
          | some hash =>
            simp only []
            rw [← h.2.2.2.2.2.2.2.2.2]
            cases s₁.bcrypt.CompareHashAndPassword hash req.Password with
            | some e => rfl
            | none => exact issue_and_store_same s₁ s₂ w w user.ID user.Email h
  · intro req hce
    unfold service.Register
    rw [← h.2.2.2.2.2.2.2.2.2]
    cases s₁.bcrypt.GenerateFromPassword req.Password with
    | error e => rfl
    | ok hash =>
      simp only []
      have hc : s₁.repo.CreateUser w.users (RegisterRequestToUser req hash) =
          s₂.repo.CreateUser w.users (RegisterRequestToUser req hash) := by
        unfold Repository.CreateUser
        rw [hce, h.2.2.2.2.2.2.2.2.1]
      rw [← hc]
      cases s₁.repo.CreateUser w.users (RegisterRequestToUser req hash) with
      | error e => rfl
      | ok res =>
        obtain ⟨userID, users⟩ := res
        exact issue_and_store_same s₁ s₂ { w with users := users } { w with users := users }
          userID req.Email h
  · intro req e he
    unfold service.Login at he
    split at he
    · simp at he; exact Or.inl he.symm
    · split at he
      · simp at he; exact Or.inl he.symm
      · split at he
        · simp at he; exact Or.inl he.symm
        · split at he
          · simp at he
          · split at he
            · simp at he; exact Or.inl he.symm
            · split at he
              · simp at he; exact Or.inr he.symm
              · split at he
                · simp at he; exact Or.inr he.symm
                · simp at he
  · intro req e he
    unfold service.Register at he
    split at he
    · simp at he; exact Or.inl he.symm
    · rename_i hash hh
      simp only at he
      split at he
      · rename_i e' hc
        simp at he
        exact Or.inr ⟨hash, by rw [hc, he]⟩
      · split at he
        · simp at he; exact Or.inl he.symm
        · split at he
          · simp at he; exact Or.inl he.symm
          · simp at he

/-- Witness of `no_internal_cause_leaked`: a refresh-token write that is refused and
one that times out give the same result in `Login` and in `Register`. -/
theorem no_internal_cause_leaked_witness :
    SameUpToErrorDetail serviceStoreFails serviceStoreTimesOut ∧
    serviceStoreFails.Login (worldWith "old") ⟨"a@x.com", "password1"⟩ =
      serviceStoreTimesOut.Login (worldWith "old") ⟨"a@x.com", "password1"⟩ ∧
    serviceStoreFails.Register emptyWorld ⟨"a@x.com", "password1"⟩ =
      serviceStoreTimesOut.Register emptyWorld ⟨"a@x.com", "password1"⟩ ∧
    (serviceStoreFails.Login (worldWith "old") ⟨"a@x.com", "password1"⟩).1 =
      .err PersistenceFailure :=
  have hs : SameUpToErrorDetail serviceStoreFails serviceStoreTimesOut :=
    ⟨fun _ _ => sameResult_refl _, fun _ => sameResult_refl _, rfl, rfl, rfl, rfl, rfl, rfl,
      rfl, rfl⟩
  ⟨hs,
   (no_internal_cause_leaked serviceStoreFails serviceStoreTimesOut (worldWith "old") hs).1 _,
   (no_internal_cause_leaked serviceStoreFails serviceStoreTimesOut emptyWorld hs).2.1 _ rfl,
   by decide⟩

/-- C10 (counterexample). Two registrations that differ only in the detail of the
error `createUser` reports return two different errors, each the store's own. -/
theorem no_internal_cause_leaked_counterexample :
    SameUpToErrorDetail (serviceCreateFails "pq: connection refused")
      (serviceCreateFails "pq: deadlock detected") ∧
    (serviceCreateFails "pq: connection refused").Register emptyWorld
      ⟨"a@x.com", "password1"⟩ = (.err "pq: connection refused", emptyWorld) ∧
    (serviceCreateFails "pq: deadlock detected").Register emptyWorld
      ⟨"a@x.com", "password1"⟩ = (.err "pq: deadlock detected", emptyWorld) ∧
    (serviceCreateFails "pq: connection refused").Register emptyWorld
      ⟨"a@x.com", "password1"⟩ ≠
    (serviceCreateFails "pq: deadlock detected").Register emptyWorld
      ⟨"a@x.com", "password1"⟩ :=
  ⟨⟨fun _ _ => sameResult_refl _, fun _ => sameResult_refl _, rfl, rfl, rfl, rfl, rfl, rfl,
      rfl, rfl⟩,
   by decide, by decide, by decide⟩

/-- What a successful `CreateUser` did. -/
theorem CreateUser_ok_inv (r : Repository) (users users' : List User) (user : User)
    (id : String) (h : r.CreateUser users user = .ok (id, users')) :
    r.CreateUserErr = none ∧ (∀ u ∈ users, u.Email ≠ user.Email) ∧
    id = r.NewID ∧ users' = users ++ [{ user with ID := id }] := by
  unfold Repository.CreateUser at h
  cases hc : r.CreateUserErr with
  | some e => simp [hc] at h
  | none =>
    simp only [hc] at h
    split at h
    · simp at h
    · rename_i hdup
      split at h
      · simp at h
      · simp only [Except.ok.injEq, Prod.mk.injEq] at h
        refine ⟨rfl, ?_, h.1.symm, ?_⟩
        · intro u hu he
          exact hdup (List.any_eq_true.2 ⟨u, hu, by simp [he]⟩)
        · rw [← h.2, h.1]

/-- A lookup in a table extended by one row finds that row when no earlier row
matches and the new row does. -/
theorem find?_append_singleton (p : User → Bool) (l : List User) (row : User)
    (hl : ∀ u ∈ l, p u = false) (hrow : p row = true) :
    (l ++ [row]).find? p = some row := by
  induction l with
  | nil => simp [List.find?, hrow]
  | cons a rest ih =>
    have ha : p a = false := hl a (List.mem_cons_self _ _)
    rw [List.cons_append, List.find?_cons, ha]
    exact ih (fun u hu => hl u (List.mem_cons_of_mem _ hu))

/-- C11. Login after failed Register.  When user creation succeeds and the
refresh-token write fails, `Register` returns an error, the created row (request
email, the hash, provider `local`, unconfirmed) stays in the Credential Store and the
Session Store is untouched; a following `Login` with the same email and (non-empty)
password, with the stores working, the hasher accepting the hash it produced and the
codec issuing a pair, succeeds for that user and stores the refresh token it
returns. -/
theorem Login_after_failed_Register (s₁ s₂ : service) (w : World)
    (email password hash id : String) (users : List User) (p₁ p₂ : TokenPair) (e : Error)
    (hpw : password ≠ "")
    (hhash : s₁.bcrypt.GenerateFromPassword password = .ok hash)
    (hcreate : s₁.repo.CreateUser w.users (RegisterRequestToUser ⟨email, password⟩ hash) =
      .ok (id, users))
    (hgen : s₁.jwtHelper.GenerateTokenPair id email = .ok p₁)
    (hfail : s₁.redis.StoreRefreshTokenErr = some e)
    (hlookup : s₂.repo.GetByEmailProviderErr = none)
    (hfetch : s₂.repo.GetPasswordHashByEmailErr = none)
    (hstore : s₂.redis.StoreRefreshTokenErr = none)
    (hcmp : s₂.bcrypt.CompareHashAndPassword hash password = none)
    (hgen₂ : s₂.jwtHelper.GenerateTokenPair id email = .ok p₂) :
    ∃ w₁, s₁.Register w ⟨email, password⟩ = (.err PersistenceFailure, w₁) ∧
      w₁.users = w.users ++ [⟨id, email, some hash, LocalProvider, false⟩] ∧
      w₁.kv = w.kv ∧
      ∃ w₂, s₂.Login w₁ ⟨email, password⟩ =
          (.ok ⟨p₂.AccessToken, p₂.RefreshToken, p₂.ExpiresIn, id, email⟩, w₂) ∧
        storedRefreshToken w₂ id = some p₂.RefreshToken ∧
        w₂.users = w₁.users := by
  obtain ⟨-, hnodup, -, husers⟩ := CreateUser_ok_inv _ _ _ _ _ hcreate
  have hreg : s₁.Register w ⟨email, password⟩ =
      (.err PersistenceFailure, { w with users := users }) := by
    simp [service.Register, hhash, hcreate, hgen, service.storeRefreshToken,
      RedisService.StoreRefreshToken, hfail, PersistenceFailure]
  refine ⟨{ w with users := users }, hreg, ?_, rfl, ?_⟩
  · rw [husers]
    rfl
  · have hrow : users = w.users ++ [⟨id, email, some hash, LocalProvider, false⟩] := by
      rw [husers]
      rfl
    have hf1 : users.find? (fun u => decide (u.Email = email ∧ u.Provider = LocalProvider)) =
        some ⟨id, email, some hash, LocalProvider, false⟩ := by
      rw [hrow]
      apply find?_append_singleton
      · intro u hu
        have := hnodup u hu
        simp only [RegisterRequestToUser] at this
        simp [this]
      · simp
    have hf2 : users.find? (fun u => decide (u.Email = email)) =
        some ⟨id, email, some hash, LocalProvider, false⟩ := by
      rw [hrow]
      apply find?_append_singleton
      · intro u hu
        have := hnodup u hu
        simp only [RegisterRequestToUser] at this
        simp [this]
      · simp
    have hstore' := (storeRefreshToken_ok_iff s₂ { w with users := users } _ id
      p₂.RefreshToken).2 ⟨hstore, rfl⟩
    refine ⟨_, ?_, storedRefreshToken_kvSet { w with users := users } id p₂.RefreshToken, rfl⟩
    have hget1 : s₂.repo.GetByEmailProvider users email LocalProvider =
        .ok ⟨id, email, some hash, LocalProvider, false⟩ := by
      unfold Repository.GetByEmailProvider
      rw [hlookup]
      simp only [hf1]
    have hget2 : s₂.repo.GetPasswordHashByEmail users email = .ok (some hash) := by
      unfold Repository.GetPasswordHashByEmail
      rw [hfetch]
      simp only [hf2]
    simp [service.Login, hget1, hget2, hpw, hcmp, hgen₂, hstore']

/-- Witness of `Login_after_failed_Register`: `a@x.com` registers while the Session
Store refuses the write, then logs in with the store working. -/
theorem Login_after_failed_Register_witness :
    ∃ w₁, serviceStoreFails.Register emptyWorld ⟨"a@x.com", "password1"⟩ =
        (.err PersistenceFailure, w₁) ∧
      w₁.users = emptyWorld.users ++ [⟨"u1", "a@x.com", some "salt:password1", LocalProvider, false⟩] ∧
      w₁.kv = emptyWorld.kv ∧
      ∃ w₂, (demoService fixedCodec).Login w₁ ⟨"a@x.com", "password1"⟩ =
          (.ok ⟨"access.u1.a@x.com", "refresh.u1.a@x.com", 900, "u1", "a@x.com"⟩, w₂) ∧
        storedRefreshToken w₂ "u1" = some "refresh.u1.a@x.com" ∧
        w₂.users = w₁.users :=
  Login_after_failed_Register serviceStoreFails (demoService fixedCodec) emptyWorld
    "a@x.com" "password1" "salt:password1" "u1" _
    ⟨"access.u1.a@x.com", "refresh.u1.a@x.com", 900⟩
    ⟨"access.u1.a@x.com", "refresh.u1.a@x.com", 900⟩ "connection refused"
    (by decide) rfl rfl rfl rfl rfl rfl rfl rfl rfl

/-- C12 (amended). A non-empty token that the codec verifies as type `refresh` and
whose subject has a stored refresh token different from it (exact string
comparison) is rejected, the store being readable, with `TokenMismatch`, and nothing
changes.  `TokenMismatch` carries the same message as the `InvalidToken` error
returned when the codec rejects the token: the caller cannot tell the two apart. -/
theorem RefreshTokens_stored_mismatch (s : service) (w : World) (t stored : String)
    (claims : Claims)
    (hne : t ≠ "") (hp : s.jwtHelper.ParseJWT t = .ok claims) (hty : claims.Type_ = "refresh")
    (hg : s.redis.GetRefreshTokenErr = none)
    (hst : storedRefreshToken w claims.UserID = some stored) (hd : stored ≠ t) :
    s.RefreshTokens w t = (.err TokenMismatch, w) ∧
    (∀ (s' : service) (w' : World) (t' e : String), t' ≠ "" →
      s'.jwtHelper.ParseJWT t' = .error e →
      s'.RefreshTokens w' t' = (.err InvalidToken, w')) ∧
    TokenMismatch = InvalidToken := by
  refine ⟨?_, ?_, rfl⟩
  · exact RefreshTokens_mismatch s w t stored claims hne hp hty hg
      ((storedRefreshToken_eq_some _ _ _).1 hst) hd
  · intro s' w' t' e hne' hp'
    simp [service.RefreshTokens, hne', hp', InvalidToken]

/-- Witness of `RefreshTokens_stored_mismatch`: `new` is stored for `u1`, the rotated-out
`old` is replayed. -/
theorem RefreshTokens_stored_mismatch_witness :
    (demoService rotatingCodec).RefreshTokens (worldWith "new") "old" =
      (.err TokenMismatch, worldWith "new") ∧
    (demoService rotatingCodec).RefreshTokens (worldWith "new") "garbage" =
      (.err InvalidToken, worldWith "new") :=
  have h := RefreshTokens_stored_mismatch (demoService rotatingCodec) (worldWith "new") "old"
    "new" ⟨"u1", "a@x.com", "refresh"⟩ (by decide) rfl rfl rfl (by decide) (by decide)
  ⟨h.1, h.2.1 (demoService rotatingCodec) (worldWith "new") "garbage" "token is malformed"
    (by decide) rfl⟩

/-- C12 (counterexample). With `new` stored for `u1`, the replayed token `old` (which
the codec verifies as a refresh token of `u1`) and the string `garbage` (which the
codec rejects) get the same error. -/
theorem RefreshTokens_stored_mismatch_counterexample :
    storedRefreshToken (worldWith "new") "u1" = some "new" ∧
    ((demoService rotatingCodec).RefreshTokens (worldWith "new") "old").1 =
      .err "неверный refresh token" ∧
    ((demoService rotatingCodec).RefreshTokens (worldWith "new") "garbage").1 =
      .err "неверный refresh token" := by
  decide

theorem kvDelete_of_kvGet_none (kv : KV) (k : String) (h : kvGet kv k = none) :
    kvDelete kv k = kv := by
  induction kv with
  | nil => rfl
  | cons p rest ih =>
    obtain ⟨k0, v⟩ := p
    by_cases hk : k0 = k
    · simp [kvGet, hk] at h
    · simp only [kvGet, if_neg hk] at h
      rw [kvDelete_cons_ne _ _ _ _ hk, ih h]

/-- C13. `Logout` is idempotent.  With the Session Store reachable, `Logout`
succeeds whether or not a refresh token is stored for the id (and changes nothing
when none is); after it no refresh token is stored for the id, and a second `Logout`
succeeds and leaves the state as the first one left it. -/
theorem Logout_idempotent (s₁ s₂ : service) (w : World) (u : String)
    (h₁ : s₁.redis.DeleteRefreshTokenErr = none)
    (h₂ : s₂.redis.DeleteRefreshTokenErr = none) :
    (s₁.Logout w u).1 = none ∧
    (kvGet w.kv (getRefreshTokenKey u) = none → s₁.Logout w u = (none, w)) ∧
    kvGet (s₁.Logout w u).2.kv (getRefreshTokenKey u) = none ∧
    storedRefreshToken (s₁.Logout w u).2 u = none ∧
    s₂.Logout (s₁.Logout w u).2 u = (none, (s₁.Logout w u).2) := by
  have hl : ∀ (s : service) (w : World), s.redis.DeleteRefreshTokenErr = none →
      s.Logout w u = (none, { w with kv := kvDelete w.kv (getRefreshTokenKey u) }) := by
    intro s w h
    simp [service.Logout, RedisService.DeleteRefreshToken, h]
  rw [hl s₁ w h₁]
  refine ⟨rfl, ?_, kvGet_kvDelete_self _ _, ?_, ?_⟩
  · intro hk
    rw [kvDelete_of_kvGet_none _ _ hk]
  · simp [storedRefreshToken, kvGet_kvDelete_self]
  · rw [hl s₂ _ h₂]
    simp [kvDelete_kvDelete]

/-- Witness of `Logout_idempotent`: `u1` logs out twice, `u9` has no session. -/
theorem Logout_idempotent_witness :
    ((demoService fixedCodec).Logout (worldWith "old") "u1").1 = none ∧
    (demoService fixedCodec).Logout (worldWith "old") "u9" = (none, worldWith "old") ∧
    storedRefreshToken ((demoService fixedCodec).Logout (worldWith "old") "u1").2 "u1" = none ∧
    (demoService fixedCodec).Logout ((demoService fixedCodec).Logout (worldWith "old") "u1").2 "u1" =
      (none, ((demoService fixedCodec).Logout (worldWith "old") "u1").2) :=
  have h := Logout_idempotent (demoService fixedCodec) (demoService fixedCodec)
    (worldWith "old") "u1" rfl rfl
  ⟨h.1,
   (Logout_idempotent (demoService fixedCodec) (demoService fixedCodec)
     (worldWith "old") "u9" rfl rfl).2.1 (by decide),
   h.2.2.2.1, h.2.2.2.2⟩

/-- C14. When the user id or the email is empty, `SendConfirmationLink` fails with
`MissingParameter` whatever the random source, the stores and the publisher would
do: nothing is written to the Session Store and no email event is published. -/
theorem SendConfirmationLink_missing_parameter (s : service) (w : World)
    (req : SendConfirmationEmailRequest) (userID : String)
    (h : userID = "" ∨ req.Email = "") :
    s.SendConfirmationLink w req userID = (some MissingParameter, w) := by
  simp [service.SendConfirmationLink, h, MissingParameter]

/-- Witness of `SendConfirmationLink_missing_parameter`: an empty user id, an empty
email. -/
theorem SendConfirmationLink_missing_parameter_witness :
    (demoService fixedCodec).SendConfirmationLink (worldWith "old") ⟨"a@x.com"⟩ "" =
      (some MissingParameter, worldWith "old") ∧
    (demoService fixedCodec).SendConfirmationLink (worldWith "old") ⟨""⟩ "u1" =
      (some MissingParameter, worldWith "old") :=
  ⟨SendConfirmationLink_missing_parameter _ _ _ _ (Or.inl rfl),
   SendConfirmationLink_missing_parameter _ _ _ _ (Or.inr rfl)⟩

/-- What `SendConfirmationLink` does once the inputs are non-empty, the random source
has yielded `raw` and the Session Store write is carried out. -/
theorem SendConfirmationLink_stored (s : service) (w : World)
    (req : SendConfirmationEmailRequest) (userID : String) (raw : ByteSlice 32)
    (hu : userID ≠ "") (he : req.Email ≠ "") (hrand : s.rand.Read 32 = .ok raw)
    (hstore : s.redis.StoreEmailConfirmationErr = none) :
    s.SendConfirmationLink w req userID =
      (none,
       { kv := kvSet w.kv (getEmailConfirmationKey (hexEncodeToString raw.val))
           (.confirmation userID req.Email),
         users := w.users,
         outbox :=
           match s.rabbitmq with
           | some mq =>
             match mq.PublishEmailErr with
             | some _ => w.outbox
             | none => w.outbox ++ [confirmationEvent req.Email (hexEncodeToString raw.val)]
           | none => w.outbox }) := by
  unfold service.SendConfirmationLink
  simp only [hu, he, or_self, if_false, hrand, RedisService.StoreEmailConfirmation, hstore]
  cases s.rabbitmq with
  | none => rfl
  | some mq =>
    cases hm : mq.PublishEmailErr with
    | none => simp only [hm]; rfl
    | some e => simp only [hm]

/-- C15. Email dispatch is best-effort.  With non-empty inputs, a successful random
draw and a successful Session Store write, `SendConfirmationLink` returns success and
stores the same mapping (token to user id and email) whether the messaging publisher
succeeds, fails or is absent; only a publisher that succeeds adds an event to the
outbox. -/
theorem SendConfirmationLink_best_effort (s : service) (w : World)
    (req : SendConfirmationEmailRequest) (userID : String) (raw : ByteSlice 32)
    (mq : Option RabbitMQService)
    (hu : userID ≠ "") (he : req.Email ≠ "") (hrand : s.rand.Read 32 = .ok raw)
    (hstore : s.redis.StoreEmailConfirmationErr = none) :
    (({ s with rabbitmq := mq } : service).SendConfirmationLink w req userID).1 = none ∧
    (({ s with rabbitmq := mq } : service).SendConfirmationLink w req userID).2.kv =
      kvSet w.kv (getEmailConfirmationKey (hexEncodeToString raw.val))
        (.confirmation userID req.Email) ∧
    (({ s with rabbitmq := mq } : service).SendConfirmationLink w req userID).2.users =
      w.users ∧
    (({ s with rabbitmq := mq } : service).SendConfirmationLink w req userID).2.outbox =
      (if mq = some ⟨none⟩ then
        w.outbox ++ [confirmationEvent req.Email (hexEncodeToString raw.val)]
       else w.outbox) := by
  have h := SendConfirmationLink_stored { s with rabbitmq := mq } w req userID raw hu he
    hrand hstore
  rw [h]
  refine ⟨rfl, rfl, rfl, ?_⟩
  cases mq with
  | none => simp
  | some m =>
    obtain ⟨err⟩ := m
    cases err with
    | none => simp
    | some e => simp

/-- Witness of `SendConfirmationLink_best_effort`: the publisher succeeds, fails, is
absent; the stored mapping is the same. -/
theorem SendConfirmationLink_best_effort_witness :
    (({ demoService fixedCodec with rabbitmq := some ⟨none⟩ } : service).SendConfirmationLink
      (worldWith "old") ⟨"a@x.com"⟩ "u1") = (none, worldSent "old") ∧
    (({ demoService fixedCodec with rabbitmq := some ⟨some "channel closed"⟩ } :
      service).SendConfirmationLink (worldWith "old") ⟨"a@x.com"⟩ "u1") =
      (none, { worldSent "old" with outbox := [] }) ∧
    (({ demoService fixedCodec with rabbitmq := none } : service).SendConfirmationLink
      (worldWith "old") ⟨"a@x.com"⟩ "u1").2.kv = (worldSent "old").kv ∧
    (({ demoService fixedCodec with rabbitmq := none } : service).SendConfirmationLink
      (worldWith "old") ⟨"a@x.com"⟩ "u1").1 = none :=
  have h := SendConfirmationLink_best_effort (demoService fixedCodec) (worldWith "old")
    ⟨"a@x.com"⟩ "u1" ⟨List.replicate 32 0xab, List.length_replicate 32 _⟩ none
    (by decide) (by decide) rfl rfl
  ⟨by decide, by decide, h.2.1, h.1⟩

theorem hexValue_hexDigit (n : Nat) (h : n < 16) : hexValue (hexDigit n) = n := by
  interval_cases n <;> decide

theorem hexDigit_mem (n : Nat) (h : n < 16) : hexDigit n ∈ "0123456789abcdef".toList := by
  interval_cases n <;> decide

theorem hexEncodeToString_data_cons (b : Fin 256) (bs : List (Fin 256)) :
    (hexEncodeToString (b :: bs)).data =
      hexDigit (b.val / 16) :: hexDigit (b.val % 16) :: (hexEncodeToString bs).data := by
  simp [hexEncodeToString]

theorem hexEncodeToString_length (bs : List (Fin 256)) :
    (hexEncodeToString bs).length = 2 * bs.length := by
  induction bs with
  | nil => rfl
  | cons b rest ih =>
    have h1 : (hexEncodeToString (b :: rest)).length =
        (hexEncodeToString (b :: rest)).data.length := rfl
    have h2 : (hexEncodeToString rest).length = (hexEncodeToString rest).data.length := rfl
    rw [h1, hexEncodeToString_data_cons, List.length_cons, List.length_cons, ← h2, ih,
      List.length_cons]
    omega

theorem hexEncodeToString_chars (bs : List (Fin 256)) :
    ∀ c ∈ (hexEncodeToString bs).data, c ∈ "0123456789abcdef".toList := by
  induction bs with
  | nil =>
    intro c hc
    simp [hexEncodeToString] at hc
  | cons b rest ih =>
    intro c hc
    rw [hexEncodeToString_data_cons] at hc
    have hb := b.isLt
    rcases List.mem_cons.1 hc with h | hc
    · rw [h]
      exact hexDigit_mem _ (by omega)
    · rcases List.mem_cons.1 hc with h | hc
      · rw [h]
        exact hexDigit_mem _ (Nat.mod_lt _ (by decide))
      · exact ih c hc

theorem hexDecode_hexEncodeToString (bs : List (Fin 256)) :
    hexDecode (hexEncodeToString bs).data = bs.map (fun b => b.val) := by
  induction bs with
  | nil => rfl
  | cons b rest ih =>
    have hb := b.isLt
    rw [hexEncodeToString_data_cons]
    simp only [hexDecode, List.map_cons, ih]
    rw [hexValue_hexDigit _ (by omega), hexValue_hexDigit _ (Nat.mod_lt _ (by decide))]
    congr 1
    omega

theorem hexEncodeToString_injective (a b : List (Fin 256))
    (h : hexEncodeToString a = hexEncodeToString b) : a = b := by
  have := congrArg (fun s => hexDecode s.data) h
  simp only [hexDecode_hexEncodeToString] at this
  exact List.map_injective_iff.2 Fin.val_injective this

/-- C16. For every 32-byte random draw, the confirmation token `SendConfirmationLink`
builds is the lowercase hexadecimal encoding of the bytes: reading it back two digits
per byte gives the bytes, it has exactly 64 characters, all among `0`-`9`, `a`-`f`,
two distinct draws give two distinct tokens; the mapping is stored under that token,
and the confirmation URL of the published event is
`https://sportmates.ru/confirm?token=` followed by the token. -/
theorem confirmation_token_hex (raw : ByteSlice 32) :
    hexDecode (hexEncodeToString raw.val).data = raw.val.map (fun b => b.val) ∧
    (hexEncodeToString raw.val).length = 64 ∧
    (∀ c ∈ (hexEncodeToString raw.val).data, c ∈ "0123456789abcdef".toList) ∧
    (∀ raw' : ByteSlice 32, raw' ≠ raw →
      hexEncodeToString raw'.val ≠ hexEncodeToString raw.val) ∧
    (∀ (s : service) (w : World) (req : SendConfirmationEmailRequest) (userID : String),
      userID ≠ "" → req.Email ≠ "" → s.rand.Read 32 = .ok raw →
      s.redis.StoreEmailConfirmationErr = none → s.rabbitmq = some ⟨none⟩ →
      s.SendConfirmationLink w req userID =
        (none,
         { kv := kvSet w.kv (getEmailConfirmationKey (hexEncodeToString raw.val))
             (.confirmation userID req.Email),
           users := w.users,
           outbox := w.outbox ++
             [{ To := req.Email, Template := "email_confirmation",
                Subject := "Подтвердите ваш email",
                Data := [("confirmation_url",
                            "https://sportmates.ru/confirm?token=" ++
                              hexEncodeToString raw.val),
                         ("user_email", req.Email)] }] })) := by
  refine ⟨hexDecode_hexEncodeToString _, ?_, hexEncodeToString_chars _, ?_, ?_⟩
  · rw [hexEncodeToString_length, raw.property]
  · intro raw' hne heq
    exact hne (Subtype.ext (hexEncodeToString_injective _ _ heq))
  · intro s w req userID hu he hrand hstore hmq
    rw [SendConfirmationLink_stored s w req userID raw hu he hrand hstore, hmq]
    rfl

/-- Witness of `confirmation_token_hex`: the draw of 32 bytes `0xab` gives the token
`abab…ab` of 64 characters; the draw of 32 bytes `0x0f` gives another token. -/
theorem confirmation_token_hex_witness :
    hexEncodeToString (List.replicate 32 (0xab : Fin 256)) =
      "abababababababababababababababababababababababababababababababab" ∧
    hexDecode (hexEncodeToString (List.replicate 32 (0xab : Fin 256))).data =
      List.replicate 32 171 ∧
    (hexEncodeToString (List.replicate 32 (0xab : Fin 256))).length = 64 ∧
    hexEncodeToString (List.replicate 32 (0x0f : Fin 256)) ≠
      hexEncodeToString (List.replicate 32 (0xab : Fin 256)) ∧
    (demoService fixedCodec).SendConfirmationLink (worldWith "old") ⟨"a@x.com"⟩ "u1" =
      (none, worldSent "old") :=
  have h := confirmation_token_hex ⟨List.replicate 32 0xab, List.length_replicate 32 _⟩
  ⟨by decide, h.1, h.2.1,
   h.2.2.2.1 ⟨List.replicate 32 0x0f, List.length_replicate 32 _⟩ (by decide),
   h.2.2.2.2 (demoService fixedCodec) (worldWith "old") ⟨"a@x.com"⟩ "u1" (by decide)
     (by decide) rfl rfl rfl⟩

/-- C17 (amended). A non-empty token without a mapping in the Session Store is
rejected by `ConfirmEmail` with `InvalidOrExpiredToken`; the empty string is rejected
with the separate error `TokenRequired` before the store is consulted.  Either way
nothing changes, so every user's `emailConfirmed` flag is as it was. -/
theorem ConfirmEmail_no_mapping (s : service) (w : World) (token : String)
    (h : confirmationEntry w token = none) :
    (token ≠ "" → s.ConfirmEmail w token = (some InvalidOrExpiredToken, w)) ∧
    (token = "" → s.ConfirmEmail w token = (some TokenRequired, w)) ∧
    (s.ConfirmEmail w token).2.users = w.users ∧
    TokenRequired ≠ InvalidOrExpiredToken := by
  have hget : ∃ e, s.redis.GetEmailConfirmationUserID w.kv token = .error e := by
    unfold RedisService.GetEmailConfirmationUserID
    cases s.redis.GetEmailConfirmationUserIDErr with
    | some e => exact ⟨e, rfl⟩
    | none =>
      cases hk : kvGet w.kv (getEmailConfirmationKey token) with
      | none => exact ⟨ErrMissing, rfl⟩
      | some v =>
        cases v with
        | token t => exact ⟨ErrMissing, rfl⟩
        | confirmation u e => simp [confirmationEntry, hk] at h
  obtain ⟨e, he⟩ := hget
  have h1 : token ≠ "" → s.ConfirmEmail w token = (some InvalidOrExpiredToken, w) := by
    intro hne
    simp [service.ConfirmEmail, hne, he, InvalidOrExpiredToken]
  have h2 : token = "" → s.ConfirmEmail w token = (some TokenRequired, w) := by
    intro heq
    simp [service.ConfirmEmail, heq, TokenRequired]
  refine ⟨h1, h2, ?_, by decide⟩
  by_cases hne : token = ""
  · rw [h2 hne]
  · rw [h1 hne]

/-- Witness of `ConfirmEmail_no_mapping`: a token that was never issued, and the
empty string. -/
theorem ConfirmEmail_no_mapping_witness :
    (demoService fixedCodec).ConfirmEmail worldPending "0123" =
      (some InvalidOrExpiredToken, worldPending) ∧
    (demoService fixedCodec).ConfirmEmail worldPending "" =
      (some TokenRequired, worldPending) :=
  ⟨(ConfirmEmail_no_mapping (demoService fixedCodec) worldPending "0123" (by decide)).1
     (by decide),
   (ConfirmEmail_no_mapping (demoService fixedCodec) worldPending "" (by decide)).2.1 rfl⟩

/-- C17 (counterexample). The empty string has no mapping, and `ConfirmEmail` rejects
it with an error that is not `InvalidOrExpiredToken`. -/
theorem ConfirmEmail_no_mapping_counterexample :
    confirmationEntry worldPending "" = none ∧
    (demoService fixedCodec).ConfirmEmail worldPending "" =
      (some "токен обязателен", worldPending) ∧
    ((demoService fixedCodec).ConfirmEmail worldPending "").1 ≠ some InvalidOrExpiredToken := by
  decide

/-- C18. A rejected refresh changes nothing.  When `RefreshTokens` fails at one of
the steps 1-5 (empty input, codec rejection, wrong type, no stored token fetched,
stored token different), it returns one of the five errors of these steps and the
world, the Session Store included, exactly as it was: every later call of
`RefreshTokens` behaves as it would have before, so a token that was accepted for a
user still is. -/
theorem RefreshTokens_rejected_changes_nothing (s : service) (w : World) (t : String)
    (h : t = "" ∨
         (∃ e, s.jwtHelper.ParseJWT t = .error e) ∨
         (∃ c, s.jwtHelper.ParseJWT t = .ok c ∧ c.Type_ ≠ "refresh") ∨
         (∃ c e, s.jwtHelper.ParseJWT t = .ok c ∧
            s.redis.GetRefreshToken w.kv c.UserID = .error e) ∨
         (∃ c stored, s.jwtHelper.ParseJWT t = .ok c ∧
            s.redis.GetRefreshToken w.kv c.UserID = .ok stored ∧ stored ≠ t)) :
    (∃ e, s.RefreshTokens w t = (.err e, w) ∧
      e ∈ [MissingToken, InvalidToken, WrongTokenType, TokenNotFound, TokenMismatch]) ∧
    (s.RefreshTokens w t).2.kv = w.kv ∧
    (∀ (s' : service) (t₀ : String),
      s'.RefreshTokens (s.RefreshTokens w t).2 t₀ = s'.RefreshTokens w t₀) ∧
    (∀ u t₀, Accepted w u t₀ → Accepted (s.RefreshTokens w t).2 u t₀) := by
  have key : ∃ e, s.RefreshTokens w t = (.err e, w) ∧
      e ∈ [MissingToken, InvalidToken, WrongTokenType, TokenNotFound, TokenMismatch] := by
    unfold service.RefreshTokens
    by_cases h1 : t = ""
    · exact ⟨MissingToken, by simp [h1, MissingToken], by simp⟩
    · simp only [h1, if_false]
      cases hp : s.jwtHelper.ParseJWT t with
      | error e => exact ⟨InvalidToken, by simp [InvalidToken], by simp⟩
      | ok c =>
        by_cases h3 : c.Type_ = "refresh"
        · cases hg : s.redis.GetRefreshToken w.kv c.UserID with
          | error e => exact ⟨TokenNotFound, by simp [h3, hg, TokenNotFound], by simp⟩
          | ok stored =>
            by_cases h5 : stored = t
            · exfalso
              rcases h with h | ⟨e, h⟩ | ⟨c', h, hty⟩ | ⟨c', e, h, hg'⟩ | ⟨c', st, h, hg', hd⟩
              · exact h1 h
              · rw [hp] at h; cases h
              · rw [hp] at h; cases h; exact hty h3
              · rw [hp] at h; cases h; rw [hg] at hg'; cases hg'
              · rw [hp] at h; cases h; rw [hg] at hg'; cases hg'; exact hd h5
            · exact ⟨TokenMismatch, by simp [h3, hg, h5, TokenMismatch], by simp⟩
        · exact ⟨WrongTokenType, by simp [h3, WrongTokenType], by simp⟩
  obtain ⟨e, he, hmem⟩ := key
  refine ⟨⟨e, he, hmem⟩, by rw [he], ?_, ?_⟩
  · intro s' t₀
    rw [he]
  · intro u t₀ ha
    rw [he]
    exact ha

/-- Witness of `RefreshTokens_rejected_changes_nothing`: the replay of `old` where `new`
is stored is rejected, and `new` is accepted afterwards as before. -/
theorem RefreshTokens_rejected_changes_nothing_witness :
    (demoService rotatingCodec).RefreshTokens (worldWith "new") "old" =
      (.err TokenMismatch, worldWith "new") ∧
    ((demoService rotatingCodec).RefreshTokens (worldWith "new") "old").2.kv =
      (worldWith "new").kv ∧
    Accepted ((demoService rotatingCodec).RefreshTokens (worldWith "new") "old").2 "u1" "new" :=
  have h := RefreshTokens_rejected_changes_nothing (demoService rotatingCodec)
    (worldWith "new") "old"
    (Or.inr (Or.inr (Or.inr (Or.inr ⟨⟨"u1", "a@x.com", "refresh"⟩, "new", rfl, rfl,
      by decide⟩))))
  ⟨by decide, h.2.1,
   h.2.2.2 "u1" "new" ⟨demoService rotatingCodec, ⟨"acc", "new", 900, "u1", "a@x.com"⟩,
     worldWith "new", by decide, rfl⟩⟩

theorem GetEmailConfirmationUserID_ok (r : RedisService) (kv : KV) (T U email : String)
    (hr : r.GetEmailConfirmationUserIDErr = none)
    (hk : kvGet kv (getEmailConfirmationKey T) = some (.confirmation U email)) :
    r.GetEmailConfirmationUserID kv T = .ok U := by
  simp [RedisService.GetEmailConfirmationUserID, hr, hk]

/-- C19. For a (non-empty) token `T` mapped to user `U`, the Session Store being
readable: if `MakeEmailConfirmed` fails, `ConfirmEmail` fails with
`ConfirmationPersistFailure` and changes nothing, so the mapping of `T` is still
there and a later `ConfirmEmail(T)`, once the Credential Store marks `U`, succeeds;
if marking succeeds and deleting the mapping fails, `ConfirmEmail` returns success,
the user being marked and the mapping kept. -/
theorem ConfirmEmail_failures (s s₂ : service) (w : World) (T U email : String)
    (hT : T ≠ "")
    (hmap : kvGet w.kv (getEmailConfirmationKey T) = some (.confirmation U email))
    (hget : s.redis.GetEmailConfirmationUserIDErr = none) :
    (∀ e, s.repo.MakeEmailConfirmed w.users U = .error e →
      s.ConfirmEmail w T = (some ConfirmationPersistFailure, w) ∧
      kvGet (s.ConfirmEmail w T).2.kv (getEmailConfirmationKey T) =
        some (.confirmation U email) ∧
      ∀ users', s₂.redis.GetEmailConfirmationUserIDErr = none →
        s₂.repo.MakeEmailConfirmed w.users U = .ok users' →
        (s₂.ConfirmEmail (s.ConfirmEmail w T).2 T).1 = none ∧
        (s₂.ConfirmEmail (s.ConfirmEmail w T).2 T).2.users = users') ∧
    (∀ users' e, s.repo.MakeEmailConfirmed w.users U = .ok users' →
      s.redis.DeleteEmailConfirmationErr = some e →
      s.ConfirmEmail w T = (none, { w with users := users' })) := by
  have hg := GetEmailConfirmationUserID_ok s.redis w.kv T U email hget hmap
  refine ⟨?_, ?_⟩
  · intro e hm
    have hc : s.ConfirmEmail w T = (some ConfirmationPersistFailure, w) := by
      simp [service.ConfirmEmail, hT, hg, hm, ConfirmationPersistFailure]
    rw [hc]
    refine ⟨rfl, hmap, ?_⟩
    intro users' hget₂ hm₂
    have hg₂ := GetEmailConfirmationUserID_ok s₂.redis w.kv T U email hget₂ hmap
    unfold service.ConfirmEmail RedisService.DeleteEmailConfirmation
    simp only [hT, if_false, hg₂, hm₂]
    cases s₂.redis.DeleteEmailConfirmationErr with
    | none => exact ⟨rfl, rfl⟩
    | some e' => exact ⟨rfl, rfl⟩
  · intro users' e hm hd
    simp [service.ConfirmEmail, hT, hg, hm, RedisService.DeleteEmailConfirmation, hd]

/-- Witness of `ConfirmEmail_failures`: marking fails and the token stays usable;
marking succeeds and the delete fails. -/
theorem ConfirmEmail_failures_witness :
    serviceMarkFails.ConfirmEmail worldPending demoToken =
      (some ConfirmationPersistFailure, worldPending) ∧
    ((demoService fixedCodec).ConfirmEmail
      (serviceMarkFails.ConfirmEmail worldPending demoToken).2 demoToken).1 = none ∧
    serviceDeleteFails.ConfirmEmail worldPending demoToken = (none, worldConfirmedKept) :=
  have h₁ := (ConfirmEmail_failures serviceMarkFails (demoService fixedCodec) worldPending
    demoToken "u1" "a@x.com" (by decide) (by decide) rfl).1 "connection refused" rfl
  have h₂ := (ConfirmEmail_failures serviceDeleteFails (demoService fixedCodec) worldPending
    demoToken "u1" "a@x.com" (by decide) (by decide) rfl).2
    worldConfirmedKept.users "connection reset by peer" rfl rfl
  ⟨h₁.1, (h₁.2.2 worldConfirmedKept.users rfl rfl).1, h₂⟩

/-- What `Login` does for a user found under provider `local` whose hash the store
yields as a nil pointer without error, the supplied password being non-empty: the
dereference `*passwordHash` (service.go 193) panics. -/
theorem Login_nil_hash (s : service) (w : World) (req : LoginRequest) (user : User)
    (hu : s.repo.GetByEmailProvider w.users req.Email LocalProvider = .ok user)
    (hh : s.repo.GetPasswordHashByEmail w.users req.Email = .ok none)
    (hpw : req.Password ≠ "") :
    s.Login w req = (.panicked, w) := by
  simp [service.Login, hu, hh, hpw]

/-- C20 (the code at the failing input). The local user `u3` is found by email, the
store yields no hash and no error, and `Login` with a non-empty password does not
return `InvalidCredentials`: it panics at the dereference of the hash. -/
theorem Login_unset_hash_panics :
    (demoService fixedCodec).repo.GetByEmailProvider worldUnsetHash.users "c@x.com"
      LocalProvider = .ok ⟨"u3", "c@x.com", none, "local", false⟩ ∧
    (demoService fixedCodec).repo.GetPasswordHashByEmail worldUnsetHash.users "c@x.com" =
      .ok none ∧
    (demoService fixedCodec).Login worldUnsetHash ⟨"c@x.com", "password1"⟩ =
      (.panicked, worldUnsetHash) ∧
    ((demoService fixedCodec).Login worldUnsetHash ⟨"c@x.com", "password1"⟩).1 ≠
      .err InvalidCredentials :=
  ⟨rfl, rfl, by decide, by decide⟩

/-- Storing the refresh token of `u` changes, in the Session Store, the entry of `u`
only. -/
theorem kvSet_refresh_frame (kv : KV) (u t : String) :
    (∀ B, u ≠ B → kvGet (kvSet kv (getRefreshTokenKey u) (.token t)) (getRefreshTokenKey B) =
      kvGet kv (getRefreshTokenKey B)) ∧
    (∀ token, kvGet (kvSet kv (getRefreshTokenKey u) (.token t))
      (getEmailConfirmationKey token) = kvGet kv (getEmailConfirmationKey token)) := by
  refine ⟨?_, ?_⟩
  · intro B hB
    exact kvGet_kvSet_of_ne _ _ _ _ (fun h => hB (getRefreshTokenKey_inj _ _ h).symm)
  · intro token
    exact kvGet_kvSet_of_ne _ _ _ _
      (fun h => getRefreshTokenKey_ne_getEmailConfirmationKey _ _ h.symm)

/-- Deleting the refresh token of `u` changes, in the Session Store, the entry of `u`
only. -/
theorem kvDelete_refresh_frame (kv : KV) (u : String) :
    (∀ B, u ≠ B → kvGet (kvDelete kv (getRefreshTokenKey u)) (getRefreshTokenKey B) =
      kvGet kv (getRefreshTokenKey B)) ∧
    (∀ token, kvGet (kvDelete kv (getRefreshTokenKey u)) (getEmailConfirmationKey token) =
      kvGet kv (getEmailConfirmationKey token)) := by
  refine ⟨?_, ?_⟩
  · intro B hB
    exact kvGet_kvDelete_of_ne _ _ _ (fun h => hB (getRefreshTokenKey_inj _ _ h).symm)
  · intro token
    exact kvGet_kvDelete_of_ne _ _ _
      (fun h => getRefreshTokenKey_ne_getEmailConfirmationKey _ _ h.symm)

/-- A `RefreshTokens` that does not succeed returns the world as it was. -/
theorem RefreshTokens_not_ok (s : service) (w w' : World) (t : String)
    (res : Result AuthResponse) (h : s.RefreshTokens w t = (res, w'))
    (hn : ∀ r, res ≠ .ok r) : w' = w := by
  unfold service.RefreshTokens at h
  split at h
  · exact (Prod.mk.inj h).2.symm
  · split at h
    · exact (Prod.mk.inj h).2.symm
    · split at h
      · exact (Prod.mk.inj h).2.symm
      · split at h
        · exact (Prod.mk.inj h).2.symm
        · split at h
          · exact (Prod.mk.inj h).2.symm
          · split at h
            · exact (Prod.mk.inj h).2.symm
            · split at h
              · exact (Prod.mk.inj h).2.symm
              · exact absurd (Prod.mk.inj h).1.symm (hn _)

/-- A `Login` that does not succeed returns the world as it was. -/
theorem Login_not_ok (s : service) (w w' : World) (req : LoginRequest)
    (res : Result AuthResponse) (h : s.Login w req = (res, w'))
    (hn : ∀ r, res ≠ .ok r) : w' = w := by
  unfold service.Login at h
  split at h
  · exact (Prod.mk.inj h).2.symm
  · split at h
    · exact (Prod.mk.inj h).2.symm
    · split at h
      · exact (Prod.mk.inj h).2.symm
      · split at h
        · exact (Prod.mk.inj h).2.symm
        · split at h
          · exact (Prod.mk.inj h).2.symm
          · split at h
            · exact (Prod.mk.inj h).2.symm
            · split at h
              · exact (Prod.mk.inj h).2.symm
              · exact absurd (Prod.mk.inj h).1.symm (hn _)

/-- A `Register` that does not succeed leaves the Session Store as it was. -/
theorem Register_not_ok (s : service) (w w' : World) (req : RegisterRequest)
    (res : Result AuthResponse) (h : s.Register w req = (res, w'))
    (hn : ∀ r, res ≠ .ok r) : w'.kv = w.kv := by
  unfold service.Register at h
  split at h
  · rw [← (Prod.mk.inj h).2]
  · simp only at h
    split at h
    · rw [← (Prod.mk.inj h).2]
    · split at h
      · rw [← (Prod.mk.inj h).2]
      · split at h
        · rw [← (Prod.mk.inj h).2]
        · exact absurd (Prod.mk.inj h).1.symm (hn _)

/-- C21. Cross-user isolation.  A `Register`, `Login` or `RefreshTokens` leaves the
Session Store entry of every user `B` other than the user of its response as it was
(a call that fails leaves every entry as it was), and a `Logout` of `A` leaves the
entry of every `B ≠ A` as it was; `Login`, `RefreshTokens` and `Logout` change
neither the rows of the Credential Store nor any email-confirmation entry. -/
theorem cross_user_isolation (s : service) (w : World) (B : String) :
    (∀ req, (subjectOf (s.Register w req).1 ≠ some B) →
      kvGet (s.Register w req).2.kv (getRefreshTokenKey B) =
        kvGet w.kv (getRefreshTokenKey B)) ∧
    (∀ req,
      ((subjectOf (s.Login w req).1 ≠ some B) →
        kvGet (s.Login w req).2.kv (getRefreshTokenKey B) =
          kvGet w.kv (getRefreshTokenKey B)) ∧
      (s.Login w req).2.users = w.users ∧
      ∀ token, kvGet (s.Login w req).2.kv (getEmailConfirmationKey token) =
        kvGet w.kv (getEmailConfirmationKey token)) ∧
    (∀ t,
      ((subjectOf (s.RefreshTokens w t).1 ≠ some B) →
        kvGet (s.RefreshTokens w t).2.kv (getRefreshTokenKey B) =
          kvGet w.kv (getRefreshTokenKey B)) ∧
      (s.RefreshTokens w t).2.users = w.users ∧
      ∀ token, kvGet (s.RefreshTokens w t).2.kv (getEmailConfirmationKey token) =
        kvGet w.kv (getEmailConfirmationKey token)) ∧
    (∀ A,
      (A ≠ B → kvGet (s.Logout w A).2.kv (getRefreshTokenKey B) =
        kvGet w.kv (getRefreshTokenKey B)) ∧
      (s.Logout w A).2.users = w.users ∧
      ∀ token, kvGet (s.Logout w A).2.kv (getEmailConfirmationKey token) =
        kvGet w.kv (getEmailConfirmationKey token)) := by
  refine ⟨?_, ?_, ?_, ?_⟩
  · intro req hB
    cases hres : s.Register w req with
    | mk res w' =>
      rw [hres] at hB
      cases res with
      | ok r =>
        obtain ⟨hash, users, p, -, -, -, -, -, hw⟩ := Register_ok_inv s w w' req r hres
        rw [hw]
        exact (kvSet_refresh_frame w.kv r.UserID p.RefreshToken).1 B
          (fun h => hB (congrArg some h))
      | err e =>
        exact congrArg (fun kv => kvGet kv (getRefreshTokenKey B))
          (Register_not_ok s w w' req _ hres (fun r h => by cases h))
      | panicked =>
        exact congrArg (fun kv => kvGet kv (getRefreshTokenKey B))
          (Register_not_ok s w w' req _ hres (fun r h => by cases h))
  · intro req
    cases hres : s.Login w req with
    | mk res w' =>
      cases res with
      | ok r =>
        obtain ⟨user, hash, p, -, -, -, -, -, -, hr, hw⟩ := Login_ok_inv s w w' req r hres
        have hu : r.UserID = user.ID := by rw [hr]
        rw [hw]
        exact ⟨fun hB => (kvSet_refresh_frame w.kv user.ID p.RefreshToken).1 B
            (fun h => hB (congrArg some (hu.trans h))), rfl,
          (kvSet_refresh_frame w.kv user.ID p.RefreshToken).2⟩
      | err e =>
        have := Login_not_ok s w w' req _ hres (fun r h => by cases h)
        subst this
        exact ⟨fun _ => rfl, rfl, fun _ => rfl⟩
      | panicked =>
        have := Login_not_ok s w w' req _ hres (fun r h => by cases h)
        subst this
        exact ⟨fun _ => rfl, rfl, fun _ => rfl⟩
  · intro t
    cases hres : s.RefreshTokens w t with
    | mk res w' =>
      cases res with
      | ok r =>
        obtain ⟨claims, p, -, -, -, -, -, -, -, hr, hw⟩ := RefreshTokens_ok_inv s w w' t r hres
        have hu : r.UserID = claims.UserID := by rw [hr]
        rw [hw]
        exact ⟨fun hB => (kvSet_refresh_frame w.kv claims.UserID p.RefreshToken).1 B
            (fun h => hB (congrArg some (hu.trans h))), rfl,
          (kvSet_refresh_frame w.kv claims.UserID p.RefreshToken).2⟩
      | err e =>
        have := RefreshTokens_not_ok s w w' t _ hres (fun r h => by cases h)
        subst this
        exact ⟨fun _ => rfl, rfl, fun _ => rfl⟩
      | panicked =>
        have := RefreshTokens_not_ok s w w' t _ hres (fun r h => by cases h)
        subst this
        exact ⟨fun _ => rfl, rfl, fun _ => rfl⟩
  · intro A
    unfold service.Logout RedisService.DeleteRefreshToken
    cases s.redis.DeleteRefreshTokenErr with
    | some e => exact ⟨fun _ => rfl, rfl, fun _ => rfl⟩
    | none =>
      exact ⟨fun hAB => (kvDelete_refresh_frame w.kv A).1 B hAB, rfl,
        (kvDelete_refresh_frame w.kv A).2⟩

/-- Witness of `cross_user_isolation`: `u1` refreshes, logs in, logs out and a third
user registers; the entry of `u2` stays `tok2`. -/
theorem cross_user_isolation_witness :
    kvGet (worldTwo "old").kv (getRefreshTokenKey "u2") = some (.token "tok2") ∧
    ((demoService rotatingCodec).RefreshTokens (worldTwo "old") "old").1 =
      .ok ⟨"acc", "new", 900, "u1", "a@x.com"⟩ ∧
    kvGet ((demoService rotatingCodec).RefreshTokens (worldTwo "old") "old").2.kv
      (getRefreshTokenKey "u2") = kvGet (worldTwo "old").kv (getRefreshTokenKey "u2") ∧
    kvGet ((demoService rotatingCodec).Login (worldTwo "old") ⟨"a@x.com", "password1"⟩).2.kv
      (getRefreshTokenKey "u2") = kvGet (worldTwo "old").kv (getRefreshTokenKey "u2") ∧
    kvGet ((demoService rotatingCodec).Logout (worldTwo "old") "u1").2.kv
      (getRefreshTokenKey "u2") = kvGet (worldTwo "old").kv (getRefreshTokenKey "u2") ∧
    kvGet (({ demoService rotatingCodec with repo := repoUp "u3" } : service).Register
      (worldTwo "old") ⟨"c@x.com", "password3"⟩).2.kv
      (getRefreshTokenKey "u2") = kvGet (worldTwo "old").kv (getRefreshTokenKey "u2") ∧
    ((demoService rotatingCodec).RefreshTokens (worldTwo "old") "old").2.users =
      (worldTwo "old").users :=
  have h := cross_user_isolation (demoService rotatingCodec) (worldTwo "old") "u2"
  ⟨by decide, by decide,
   (h.2.2.1 "old").1 (by decide),
   (h.2.1 ⟨"a@x.com", "password1"⟩).1 (by decide),
   (h.2.2.2 "u1").1 (by decide),
   (cross_user_isolation { demoService rotatingCodec with repo := repoUp "u3" }
     (worldTwo "old") "u2").1 ⟨"c@x.com", "password3"⟩ (by decide),
   (h.2.2.1 "old").2.1⟩

theorem parseUUID_canonical (s : String) (h : isCanonicalUUID s = true) :
    parseUUID s = some ⟨s, h⟩ := by
  simp [parseUUID, h]

/-- The cast of canonical texts yields the UUIDs of which they are the texts. -/
theorem castUUIDArray_canonical (l : List String)
    (h : ∀ s ∈ l, isCanonicalUUID s = true) :
    ∃ us, castUUIDArray l = .ok us ∧ us.map UUID.String = l := by
  induction l with
  | nil => exact ⟨[], rfl, rfl⟩
  | cons s rest ih =>
    obtain ⟨us, hus, hmap⟩ := ih (fun x hx => h x (List.mem_cons_of_mem _ hx))
    have hs := h s (List.mem_cons_self _ _)
    refine ⟨⟨s, hs⟩ :: us, ?_, ?_⟩
    · simp [castUUIDArray, parseUUID_canonical s hs, hus]
    · simp [UUID.String, List.map_cons] at hmap ⊢
      exact hmap

theorem mem_of_map_String (us : List UUID) (x : UUID) :
    x ∈ us ↔ UUID.String x ∈ us.map UUID.String := by
  constructor
  · intro hx
    exact List.mem_map_of_mem _ hx
  · intro hx
    obtain ⟨y, hy, hyx⟩ := List.mem_map.1 hx
    have : y = x := Subtype.ext hyx
    rw [← this]
    exact hy

/-- The rows after the insert: the rows that were there and the new rows of the user. -/
theorem mem_insert_fold (userID : UUID) (us : List UUID) (table : List UserSport)
    (row : UserSport) :
    row ∈ us.foldl
        (fun t x => if (⟨userID, x⟩ : UserSport) ∈ t then t else t ++ [⟨userID, x⟩]) table ↔
      row ∈ table ∨ (row.UserID = userID ∧ row.SportID ∈ us) := by
  induction us generalizing table with
  | nil => simp
  | cons x rest ih =>
    rw [List.foldl_cons, ih]
    by_cases hx : (⟨userID, x⟩ : UserSport) ∈ table
    · rw [if_pos hx]
      constructor
      · rintro (h | ⟨h1, h2⟩)
        · exact Or.inl h
        · exact Or.inr ⟨h1, List.mem_cons_of_mem _ h2⟩
      · rintro (h | ⟨h1, h2⟩)
        · exact Or.inl h
        · rcases List.mem_cons.1 h2 with h3 | h3
          · left
            have : row = ⟨userID, x⟩ := by
              cases row
              simp only [UserSport.mk.injEq]
              exact ⟨h1, h3⟩
            rw [this]
            exact hx
          · exact Or.inr ⟨h1, h3⟩
    · rw [if_neg hx]
      constructor
      · rintro (h | ⟨h1, h2⟩)
        · rcases List.mem_append.1 h with h | h
          · exact Or.inl h
          · have hr : row = ⟨userID, x⟩ := List.mem_singleton.1 h
            right
            rw [hr]
            exact ⟨rfl, List.mem_cons_self _ _⟩
        · exact Or.inr ⟨h1, List.mem_cons_of_mem _ h2⟩
      · rintro (h | ⟨h1, h2⟩)
        · exact Or.inl (List.mem_append_left _ h)
        · rcases List.mem_cons.1 h2 with h3 | h3
          · left
            have : row = ⟨userID, x⟩ := by
              cases row
              simp only [UserSport.mk.injEq]
              exact ⟨h1, h3⟩
            rw [this]
            exact List.mem_append_right _ (List.mem_singleton.2 rfl)
          · exact Or.inr ⟨h1, h3⟩

/-- What `GetUserSports` returns when the database answers. -/
theorem GetUserSports_up (r : repository) (table : List UserSport) (userID : UUID)
    (hq : r.QueryErr = none) (hs : r.ScanErr = none) (hr : r.RowsErr = none) :
    r.GetUserSports table userID =
      .ok (table.filter (fun us => decide (us.UserID = userID))) := by
  unfold repository.GetUserSports
  simp only [hq, hs, hr]
  split <;> simp_all

/-- The texts of the sports stored for a user, as `updateUserSports` collects them. -/
theorem mem_oldSet (table : List UserSport) (userID : UUID) (s : String) :
    s ∈ mapset.NewSet ((table.filter (fun us => decide (us.UserID = userID))).map
        (fun us => UUID.String us.SportID)) ↔
      ∃ row ∈ table, row.UserID = userID ∧ UUID.String row.SportID = s := by
  simp only [mapset.NewSet, List.mem_dedup, List.mem_map, List.mem_filter,
    decide_eq_true_eq]
  constructor
  · rintro ⟨row, ⟨h1, h2⟩, h3⟩
    exact ⟨row, h1, h2, h3⟩
  · rintro ⟨row, h1, h2, h3⟩
    exact ⟨row, ⟨h1, h2⟩, h3⟩
/-- When the database answers and the requested ids are in canonical form,
`updateUserSports` succeeds and leaves, for the user, exactly the requested sports;
the rows of other users are as they were. -/
theorem updateUserSports_canonical (r : repository) (table : List UserSport)
    (userID : UUID) (sportIDs : List String)
    (hq : r.QueryErr = none) (hs : r.ScanErr = none) (hr : r.RowsErr = none)
    (hi : r.InsertErr = none) (hd : r.DeleteErr = none)
    (hc : ∀ s ∈ sportIDs, isCanonicalUUID s = true) :
    ∃ table', r.updateUserSports table userID sportIDs = .ok table' ∧
      ∀ row, row ∈ table' ↔
        (row ∈ table ∧ row.UserID ≠ userID) ∨
        (row.UserID = userID ∧ UUID.String row.SportID ∈ sportIDs) := by
  have hnew : ∀ s, s ∈ mapset.NewSet sportIDs ↔ s ∈ sportIDs := by
    intro s
    simp [mapset.NewSet]
  have hold := mem_oldSet table userID
  generalize hO : mapset.NewSet ((table.filter (fun us => decide (us.UserID = userID))).map
    (fun us => UUID.String us.SportID)) = oldSet at hold
  generalize hN : mapset.NewSet sportIDs = newSet at hnew
  have hmi : ∀ s, s ∈ mapset.Difference newSet oldSet ↔ s ∈ newSet ∧ s ∉ oldSet := by
    intro s
    simp [mapset.Difference]
  have hmd : ∀ s, s ∈ mapset.Difference oldSet newSet ↔ s ∈ oldSet ∧ s ∉ newSet := by
    intro s
    simp [mapset.Difference]
  obtain ⟨ins, hins, hinsmap⟩ := castUUIDArray_canonical (mapset.Difference newSet oldSet)
    (fun s hs' => hc s ((hnew s).1 ((hmi s).1 hs').1))
  obtain ⟨del, hdel, hdelmap⟩ := castUUIDArray_canonical (mapset.Difference oldSet newSet)
    (fun s hs' => by
      obtain ⟨row, -, -, hrow⟩ := (hold s).1 ((hmd s).1 hs').1
      rw [← hrow]
      exact row.SportID.property)
  have hstep1 :
      (if (mapset.Difference newSet oldSet).length > 0 then
          r.execInsert table userID (mapset.Difference newSet oldSet)
        else .ok table) =
      .ok (ins.foldl
        (fun t x => if (⟨userID, x⟩ : UserSport) ∈ t then t else t ++ [⟨userID, x⟩])
        table) := by
    by_cases hl : (mapset.Difference newSet oldSet).length > 0
    · rw [if_pos hl]
      simp [repository.execInsert, hi, hins]
    · rw [if_neg hl]
      have hnil : mapset.Difference newSet oldSet = [] :=
        List.length_eq_zero.1 (by omega)
      rw [hnil] at hinsmap
      have : ins = [] := List.map_eq_nil_iff.1 hinsmap
      rw [this]
      rfl
  have hstep2 : ∀ t1 : List UserSport,
      (if (mapset.Difference oldSet newSet).length > 0 then
          r.execDelete t1 userID (mapset.Difference oldSet newSet)
        else .ok t1) =
      .ok (t1.filter (fun row => !decide (row.UserID = userID ∧ row.SportID ∈ del))) := by
    intro t1
    by_cases hl : (mapset.Difference oldSet newSet).length > 0
    · rw [if_pos hl]
      simp [repository.execDelete, hd, hdel]
    · rw [if_neg hl]
      have hnil : mapset.Difference oldSet newSet = [] :=
        List.length_eq_zero.1 (by omega)
      rw [hnil] at hdelmap
      have : del = [] := List.map_eq_nil_iff.1 hdelmap
      rw [this]
      simp
  refine ⟨(ins.foldl
      (fun t x => if (⟨userID, x⟩ : UserSport) ∈ t then t else t ++ [⟨userID, x⟩])
      table).filter (fun row => !decide (row.UserID = userID ∧ row.SportID ∈ del)), ?_, ?_⟩
  · unfold repository.updateUserSports
    rw [GetUserSports_up r table userID hq hs hr]
    simp only [hO, hN]
    rw [hstep1]
    simp only []
    exact hstep2 _
  · intro row
    have hin : row.SportID ∈ ins ↔
        UUID.String row.SportID ∈ sportIDs ∧
          ¬ ∃ row' ∈ table, row'.UserID = userID ∧
            UUID.String row'.SportID = UUID.String row.SportID := by
      rw [mem_of_map_String, hinsmap, hmi, hnew, hold]
    have hdl : row.SportID ∈ del ↔
        (∃ row' ∈ table, row'.UserID = userID ∧
            UUID.String row'.SportID = UUID.String row.SportID) ∧
          UUID.String row.SportID ∉ sportIDs := by
      rw [mem_of_map_String, hdelmap, hmd, hnew, hold]
    simp only [List.mem_filter, Bool.not_eq_true', decide_eq_false_iff_not, mem_insert_fold,
      hin, hdl]
    by_cases hu : row.UserID = userID
    · by_cases hreq : UUID.String row.SportID ∈ sportIDs
      · constructor
        · intro _
          exact Or.inr ⟨hu, hreq⟩
        · intro _
          refine ⟨?_, fun h => h.2.2 hreq⟩
          by_cases hex : ∃ row' ∈ table, row'.UserID = userID ∧
              UUID.String row'.SportID = UUID.String row.SportID
          · obtain ⟨row', hmem, hu', hs'⟩ := hex
            have : row' = row := by
              cases row
              cases row'
              simp only [UserSport.mk.injEq]
              exact ⟨hu'.trans hu.symm, Subtype.ext hs'⟩
            rw [← this]
            exact Or.inl hmem
          · exact Or.inr ⟨hu, hreq, hex⟩
      · constructor
        · rintro ⟨h | ⟨-, h, -⟩, hnd⟩
          · exact absurd ⟨hu, ⟨row, h, hu, rfl⟩, hreq⟩ hnd
          · exact absurd h hreq
        · rintro (⟨-, h⟩ | ⟨-, h⟩)
          · exact absurd hu h
          · exact absurd h hreq
    · constructor
      · rintro ⟨h | ⟨h, -⟩, -⟩
        · exact Or.inl ⟨h, hu⟩
        · exact absurd h hu
      · rintro (⟨h, -⟩ | ⟨h, -⟩)
        · exact ⟨Or.inl h, fun h' => hu h'.1⟩
        · exact absurd h hu
/-- The two differences `updateUserSports` computes are disjoint sets of texts. -/
theorem Difference_disjoint (a b : List String) (s : String)
    (h : s ∈ mapset.Difference a b) : s ∉ mapset.Difference b a := by
  simp only [mapset.Difference, List.mem_filter, decide_eq_true_eq] at h ⊢
  exact fun h' => h.2 h'.1

/-- C22 (the code at the failing input). The user has the sport `sportA` stored and
requests the list holding the same UUID written with upper-case digits, a valid
UUID string that denotes `sportA`.  `updateUserSports` compares texts: it puts the
upper-case text in `toInsert` and the stored canonical text in `toDelete`; the
insert conflicts with the stored row and adds nothing, the delete removes the row.
The user is left with no sport, not with the requested set. -/
theorem updateUserSports_uppercase_deletes :
    parseUUID "A0EEBC99-9C0B-4EF8-BB6D-6BB9BD380A11" = some sportA ∧
    storedSports [⟨userU, sportA⟩] userU = [sportA] ∧
    mapset.Difference (mapset.NewSet ["A0EEBC99-9C0B-4EF8-BB6D-6BB9BD380A11"])
      (mapset.NewSet [UUID.String sportA]) = ["A0EEBC99-9C0B-4EF8-BB6D-6BB9BD380A11"] ∧
    mapset.Difference (mapset.NewSet [UUID.String sportA])
      (mapset.NewSet ["A0EEBC99-9C0B-4EF8-BB6D-6BB9BD380A11"]) =
      ["a0eebc99-9c0b-4ef8-bb6d-6bb9bd380a11"] ∧
    dbUp.updateUserSports [⟨userU, sportA⟩] userU
      ["A0EEBC99-9C0B-4EF8-BB6D-6BB9BD380A11"] = .ok [] ∧
    storedSports [] userU ≠ [sportA] :=
  ⟨by decide, by decide, by decide, by decide, rfl, by decide⟩

end Sportmates
